import Mathlib

/-!
Verification of the daily task generation and status-transition audit subsystem
of the ContainerFlow repository, together with the client task categorization
and the store-level status enum.

The Lifecycle Engine, Daily Task Generator and Scheduler Driver are not shipped
as source files in this snapshot (only README_STATS.md documents them and the
client screens call them), so those components are modelled from the spec; the
client categorization (`AutomotiveTasksScreen` inside AnalyticsScreen.tsx) and
the `task_status` enum of supabase-bootstrap.sql are embedded from the source.
-/

namespace ContainerFlow

/-- The eight automotive task lifecycle statuses of README_STATS.md
("Task Status Lifecycle (Automotive)"). -/
inductive TaskStatus where
  | OPEN
  | PICKED_UP
  | IN_TRANSIT
  | DROPPED_OFF
  | TAKEN_OVER
  | WEIGHED
  | DISPOSED
  | CANCELLED
deriving DecidableEq, Repr

/-- Edges of the linear chain
OPEN→PICKED_UP→IN_TRANSIT→DROPPED_OFF→TAKEN_OVER→WEIGHED→DISPOSED. -/
def chainStep : TaskStatus → TaskStatus → Bool
  | .OPEN, .PICKED_UP => true
  | .PICKED_UP, .IN_TRANSIT => true
  | .IN_TRANSIT, .DROPPED_OFF => true
  | .DROPPED_OFF, .TAKEN_OVER => true
  | .TAKEN_OVER, .WEIGHED => true
  | .WEIGHED, .DISPOSED => true
  | _, _ => false

/-- Terminal statuses: DISPOSED and CANCELLED admit no further transition. -/
def isTerminal : TaskStatus → Bool
  | .DISPOSED => true
  | .CANCELLED => true
  | _ => false

/-- Modelled from the spec: the valid-transition test of the Lifecycle Engine
(the engine's source is not in this snapshot).  A pair is valid when it is a
chain edge, or the target is CANCELLED and the current status is non-terminal. -/
def validTransition (a b : TaskStatus) : Bool :=
  chainStep a b || (b == TaskStatus.CANCELLED && !isTerminal a)

/-- Errors surfaced by the Lifecycle Engine (spec section 4.1 / 7). -/
inductive LifecycleErr where
  | notFound
  | invalidTransition (curr requested : TaskStatus)
  | persistenceErr
deriving DecidableEq, Repr

/-- An actor is either the system (no human actor) or a user snapshot
(id, role, department captured at call time). -/
inductive Actor where
  | system
  | user (userId : String) (role : String) (departmentId : String)
deriving DecidableEq, Repr

/-- A task row.  Stage timestamps are modelled as the list of
(status reached, clock) pairs appended on each transition; `metaJson` and
presentation fields are not modelled. -/
structure Task where
  id : Nat
  status : TaskStatus
  taskType : String
  dedupKey : Option String
  scheduledFor : Option Int
  stamps : List (TaskStatus × Nat)
deriving DecidableEq, Repr

/-- An append-only audit record of one task state change
(README_STATS.md, "taskEvents Schema"); `fromStatus` is `none` for creation. -/
structure TaskEvent where
  id : Nat
  taskId : Nat
  fromStatus : Option TaskStatus
  toStatus : TaskStatus
  actor : Actor
  reason : Option String
  timestamp : Nat
deriving DecidableEq, Repr

/-- A material collection stand (only the fields the Generator reads). -/
structure Stand where
  id : String
  dailyFull : Bool
  isActive : Bool
deriving DecidableEq, Repr

/-- The relational store: stands, task rows, the audit log, and the id counter
for freshly inserted tasks.  Event ids and timestamps are assigned from the
current length of the log, so the log is strictly ordered by timestamp. -/
structure StoreState where
  stands : List Stand
  tasks : List Task
  events : List TaskEvent
  nextId : Nat
deriving DecidableEq, Repr

/-- Look a task up by id (first row with that id). -/
def findTask (st : StoreState) (tid : Nat) : Option Task :=
  st.tasks.find? (fun t => t.id == tid)

/-- The audit event recorded for a successful transition of task `t` to `s`. -/
def mkEvent (st : StoreState) (t : Task) (s : TaskStatus) (actor : Actor)
    (reason : Option String) : TaskEvent :=
  { id := st.events.length, taskId := t.id, fromStatus := some t.status,
    toStatus := s, actor := actor, reason := reason,
    timestamp := st.events.length }

/-- The task-row update of a successful transition: new status plus the
stage timestamp for the status just reached. -/
def applyTransitionTask (now : Nat) (t : Task) (s : TaskStatus) : Task :=
  { t with status := s, stamps := t.stamps ++ [(s, now)] }

/-- Modelled from the spec: `transition(taskId, toStatus, actor, meta)` of the
Lifecycle Engine (source not in this snapshot).  Looks the task up, validates
the pair against the graph, and atomically writes the task-row update together
with exactly one audit event; `storeOk` injects an underlying store failure, in
which case neither write happens. -/
def transition (st : StoreState) (storeOk : Bool) (tid : Nat) (s : TaskStatus)
    (actor : Actor) (reason : Option String) : Except LifecycleErr StoreState :=
  match findTask st tid with
  | none => .error .notFound
  | some t =>
    if validTransition t.status s then
      if storeOk then
        .ok { st with
              tasks := st.tasks.map (fun u =>
                if u.id == tid then applyTransitionTask st.events.length u s
                else u),
              events := st.events ++ [mkEvent st t s actor reason] }
      else .error .persistenceErr
    else .error (.invalidTransition t.status s)

/-- The caller-facing run of `transition`: on any error the store is left
exactly as it was (no partial write). -/
def transitionRun (st : StoreState) (storeOk : Bool) (tid : Nat)
    (s : TaskStatus) (actor : Actor) (reason : Option String) :
    StoreState × Option LifecycleErr :=
  match transition st storeOk tid s actor reason with
  | .ok st' => (st', none)
  | .error e => (st, some e)

/-! ## Daily Task Generator -/

/-- Suffix test on strings (the generator checks whether a dedup key ends
with ":" followed by today's date). -/
def endsWithStr (s post : String) : Bool := decide (post.data <:+ s.data)

/-- The fixed system reason recorded on auto-cancelled stale tasks
(README_STATS.md, "AUTO_CANCEL_PREVIOUS Policy"). -/
def autoCancelReason : String := "Auto-cancelled: New daily task generated"

/-- The task type produced by the daily generator. -/
def dailyFullType : String := "DAILY_FULL"

/-- Modelled from the spec: the stale-task test of the generator (source not in
this snapshot): status OPEN, type DAILY_FULL, and dedup key not ending with
":" ++ today (a missing key counts as not ending with it). -/
def staleTask (today : String) (t : Task) : Bool :=
  t.status == TaskStatus.OPEN && t.taskType == dailyFullType &&
    !(match t.dedupKey with
      | none => false
      | some k => endsWithStr k (":" ++ today))

/-- The dedup key format `DAILY:{standId}:{YYYY-MM-DD}`. -/
def mkDedupKey (standId today : String) : String :=
  "DAILY:" ++ standId ++ ":" ++ today

/-- A stand is eligible for daily generation iff dailyFull and isActive. -/
def eligibleStand (s : Stand) : Bool := s.dailyFull && s.isActive

/-- Modelled from the spec: the stale-cancellation loop (source not in this
snapshot).  Each selected task is transitioned to CANCELLED via the Lifecycle
Engine with the fixed system reason and the system actor; a per-task failure
is skipped so it does not abort the batch. -/
def cancelBatch : StoreState → List Task → StoreState × Nat
  | st, [] => (st, 0)
  | st, t :: ts =>
    match transition st true t.id TaskStatus.CANCELLED Actor.system
        (some autoCancelReason) with
    | .ok st1 =>
      let r := cancelBatch st1 ts
      (r.1, r.2 + 1)
    | .error _ => cancelBatch st ts

/-- Modelled from the spec: step 2 of `runDailyGeneration` — find all stale
OPEN DAILY_FULL tasks and cancel each via the Lifecycle Engine. -/
def cancelStale (today : String) (st : StoreState) : StoreState × Nat :=
  cancelBatch st (st.tasks.filter (staleTask today))

/-- Does some task row already hold this dedup key (the store's uniqueness
constraint on `dedupKey`)? -/
def keyExists (st : StoreState) (k : String) : Bool :=
  st.tasks.any (fun t => t.dedupKey == some k)

/-- Modelled from the spec: the store's response to inserting a task with the
given dedup key.  `faults` injects an arbitrary persistence error code for a
key; absent an injected fault, a key collision yields the duplicate-key code
"23505" and otherwise the insert succeeds (`none`). -/
def insertOutcome (faults : String → Option String) (st : StoreState)
    (k : String) : Option String :=
  match faults k with
  | some code => some code
  | none => if keyExists st k then some "23505" else none

/-- A freshly created OPEN task row (creation is not a lifecycle transition,
so no stage stamp). -/
def newTask (st : StoreState) (ty : String) (k : Option String)
    (sched : Option Int) : Task :=
  { id := st.nextId, status := TaskStatus.OPEN, taskType := ty, dedupKey := k,
    scheduledFor := sched, stamps := [] }

/-- The audit event recorded for a task creation: `fromStatus` is `none`. -/
def creationEvent (st : StoreState) (t : Task) : TaskEvent :=
  { id := st.events.length, taskId := t.id, fromStatus := none,
    toStatus := t.status, actor := Actor.system, reason := none,
    timestamp := st.events.length }

/-- Insert a new OPEN task row together with its creation audit event. -/
def insertNewTask (st : StoreState) (ty : String) (k : Option String)
    (sched : Option Int) : StoreState :=
  let t := newTask st ty k sched
  { st with tasks := st.tasks ++ [t],
            events := st.events ++ [creationEvent st t],
            nextId := st.nextId + 1 }

/-- Accumulator of the generator's insert loop: store state, number of tasks
created, and the per-stand failures collected so far. -/
structure InsertAcc where
  st : StoreState
  created : Nat
  failures : List (String × String)
deriving DecidableEq, Repr

/-- Modelled from the spec: one stand's insert attempt.  A duplicate-key
condition (code "23505") is swallowed as success-no-op; any other persistence
error is recorded as that stand's failure; either way the batch continues. -/
def insertForStand (faults : String → Option String) (today : String)
    (acc : InsertAcc) (s : Stand) : InsertAcc :=
  match insertOutcome faults acc.st (mkDedupKey s.id today) with
  | none =>
    { st := insertNewTask acc.st dailyFullType (some (mkDedupKey s.id today))
        none,
      created := acc.created + 1, failures := acc.failures }
  | some code =>
    if code == "23505" then acc
    else { acc with failures := acc.failures ++ [(s.id, code)] }

/-- Modelled from the spec: the generator's insert loop over the eligible
stands. -/
def insertAll (faults : String → Option String) (today : String) :
    InsertAcc → List Stand → InsertAcc
  | acc, [] => acc
  | acc, s :: ss => insertAll faults today (insertForStand faults today acc s) ss

/-- The run summary returned by the generator. -/
structure RunSummary where
  cancelled : Nat
  created : Nat
  failures : List (String × String)
deriving DecidableEq, Repr

/-- Modelled from the spec: `runDailyGeneration(referenceDate)` (source not in
this snapshot).  `today` is the `YYYY-MM-DD` rendering of the reference date
(time-zone formatting abstracted); the run cancels stale OPEN DAILY_FULL
tasks, then attempts one insert per eligible stand. -/
def runDailyGeneration (faults : String → Option String) (today : String)
    (st : StoreState) : StoreState × RunSummary :=
  ((insertAll faults today ⟨(cancelStale today st).1, 0, []⟩
      (st.stands.filter eligibleStand)).st,
   { cancelled := (cancelStale today st).2,
     created := (insertAll faults today ⟨(cancelStale today st).1, 0, []⟩
       (st.stands.filter eligibleStand)).created,
     failures := (insertAll faults today ⟨(cancelStale today st).1, 0, []⟩
       (st.stands.filter eligibleStand)).failures })

/-- The fault-free store: no injected persistence errors. -/
def noFaults : String → Option String := fun _ => none

/-! ## Scheduler Driver -/

/-- Observable scheduler events: a generation run starting, a run finishing,
and a trigger rejected with HTTP 409 because a run is in progress. -/
inductive SchedEvent where
  | beginRun
  | endRun
  | reject409
deriving DecidableEq, Repr

/-- The scheduler's concurrency guard: a single run-in-progress flag. -/
structure SchedState where
  inProgress : Bool
deriving DecidableEq, Repr

/-- Modelled from the spec: the guard's reaction to triggers (startup, hourly,
or manual) and to a run finishing.  A trigger while a run is in progress is
rejected with 409 and changes nothing; a trigger while free begins a run. -/
inductive SchedStep : SchedState → SchedEvent → SchedState → Prop where
  | triggerFree (s : SchedState) : s.inProgress = false →
      SchedStep s SchedEvent.beginRun ⟨true⟩
  | triggerBusy (s : SchedState) : s.inProgress = true →
      SchedStep s SchedEvent.reject409 s
  | finish (s : SchedState) : s.inProgress = true →
      SchedStep s SchedEvent.endRun ⟨false⟩

/-- A finite trace of guard steps with its emitted events. -/
inductive SchedTrace : SchedState → List SchedEvent → SchedState → Prop where
  | nil (s : SchedState) : SchedTrace s [] s
  | cons {s₁ s₂ s₃ : SchedState} {e : SchedEvent} {evs : List SchedEvent} :
      SchedStep s₁ e s₂ → SchedTrace s₂ evs s₃ → SchedTrace s₁ (e :: evs) s₃

/-- Acceptor of serialized-run traces: a run may begin only when none is
active, end only when one is active, and a 409 is emitted only while one is
active.  Returns the final in-progress flag, or `none` on a violation —
in particular on any second `beginRun` before the matching `endRun`. -/
def serializedRuns : Bool → List SchedEvent → Option Bool
  | b, [] => some b
  | b, SchedEvent.beginRun :: es => if b then none else serializedRuns true es
  | b, SchedEvent.endRun :: es => if b then serializedRuns false es else none
  | b, SchedEvent.reject409 :: es => if b then serializedRuns b es else none

/-- Response of `POST /api/admin/daily-tasks/run`. -/
inductive RunResp where
  | conflict409
  | summary (s : RunSummary)
deriving DecidableEq, Repr

/-- Modelled from the spec: the admin trigger endpoint over the guard flag and
the store.  While a run is in progress it returns 409 and runs nothing;
otherwise it performs one generation run and returns the summary counts
synchronously, releasing the guard. -/
def postDailyTasksRun (faults : String → Option String) (today : String)
    (locked : Bool) (st : StoreState) : (Bool × StoreState) × RunResp :=
  if locked then ((locked, st), RunResp.conflict409)
  else
    ((false, (runDailyGeneration faults today st).1),
     RunResp.summary (runDailyGeneration faults today st).2)

/-! ## Client task categorization (AutomotiveTasksScreen) -/

/-- The six tabs of the tasks screen. -/
inductive CategoryTab where
  | offen
  | unterwegs
  | abgestellt
  | entsorgung
  | abgeschlossen
  | geplant
deriving DecidableEq, Repr

/-- Status list of the "offen" tab (CATEGORY_CONFIG). -/
def offenStatuses : List String := ["OPEN"]

/-- Status list of the "unterwegs" tab (CATEGORY_CONFIG). -/
def unterwegsStatuses : List String := ["PICKED_UP", "IN_TRANSIT"]

/-- Status list of the "abgestellt" tab (CATEGORY_CONFIG). -/
def abgestelltStatuses : List String := ["DROPPED_OFF"]

/-- Status list of the "entsorgung" tab (CATEGORY_CONFIG). -/
def entsorgungStatuses : List String := ["TAKEN_OVER", "WEIGHED"]

/-- Status list of the "abgeschlossen" tab (CATEGORY_CONFIG). -/
def abgeschlossenStatuses : List String := ["DISPOSED", "CANCELLED"]

/-- Status list of the "geplant" tab (CATEGORY_CONFIG): empty — membership is
decided by the scheduledFor test, not a status list. -/
def geplantStatuses : List String := []

/-- A task as fetched by the client (`TaskWithDetails`): status is a plain
string; `scheduledFor` is a timestamp or absent.  Fields not read by the
categorization are omitted. -/
structure UiTask where
  uid : String
  status : String
  scheduledFor : Option Int
  createdAt : Int
deriving DecidableEq, Repr

/-- The else-if chain of the `allTasks.forEach` body in `categorizedTasks`:
an OPEN task scheduled at or after the start of tomorrow goes to "geplant",
otherwise the first tab whose status list contains the status wins, and a
task matching no branch is put nowhere. -/
def categorizeTask (tomorrow : Int) (t : UiTask) : Option CategoryTab :=
  let isScheduledForFuture :=
    match t.scheduledFor with
    | some d => tomorrow ≤ d
    | none => false
  if t.status == "OPEN" && isScheduledForFuture then some CategoryTab.geplant
  else if offenStatuses.contains t.status then some CategoryTab.offen
  else if unterwegsStatuses.contains t.status then some CategoryTab.unterwegs
  else if abgestelltStatuses.contains t.status then some CategoryTab.abgestellt
  else if entsorgungStatuses.contains t.status then some CategoryTab.entsorgung
  else if abgeschlossenStatuses.contains t.status then
    some CategoryTab.abgeschlossen
  else none

/-- The per-tab result record built by `categorizedTasks`. -/
structure Categorized where
  offen : List UiTask
  unterwegs : List UiTask
  abgestellt : List UiTask
  entsorgung : List UiTask
  abgeschlossen : List UiTask
  geplant : List UiTask
deriving DecidableEq, Repr

/-- The empty result record. -/
def emptyCategorized : Categorized := ⟨[], [], [], [], [], []⟩

/-- Push a task onto the list chosen by the chain (the `result.<tab>.push`). -/
def pushCategorized (tomorrow : Int) (r : Categorized) (t : UiTask) :
    Categorized :=
  match categorizeTask tomorrow t with
  | some CategoryTab.offen => { r with offen := r.offen ++ [t] }
  | some CategoryTab.unterwegs => { r with unterwegs := r.unterwegs ++ [t] }
  | some CategoryTab.abgestellt => { r with abgestellt := r.abgestellt ++ [t] }
  | some CategoryTab.entsorgung => { r with entsorgung := r.entsorgung ++ [t] }
  | some CategoryTab.abgeschlossen =>
      { r with abgeschlossen := r.abgeschlossen ++ [t] }
  | some CategoryTab.geplant => { r with geplant := r.geplant ++ [t] }
  | none => r

/-- The `categorizedTasks` memo: every fetched task is pushed through the
chain.  The subsequent in-place sorts of "offen" and "geplant" reorder those
lists only and are not modelled (the claims here concern placement, which
sorting does not change). -/
def categorizedTasks (tomorrow : Int) (tasks : List UiTask) : Categorized :=
  tasks.foldl (pushCategorized tomorrow) emptyCategorized

/-- Projection of the result record by tab, for stating placement facts. -/
def tabList (r : Categorized) : CategoryTab → List UiTask
  | .offen => r.offen
  | .unterwegs => r.unterwegs
  | .abgestellt => r.abgestellt
  | .entsorgung => r.entsorgung
  | .abgeschlossen => r.abgeschlossen
  | .geplant => r.geplant

/-! ## Store-level status enum vs documented lifecycle -/

/-- The values of the `task_status` enum declared in supabase-bootstrap.sql. -/
def sqlTaskStatusValues : List String :=
  ["PLANNED", "ASSIGNED", "ACCEPTED", "PICKED_UP", "IN_TRANSIT", "DELIVERED",
   "COMPLETED", "CANCELLED"]

/-- The wire name of each automotive lifecycle status. -/
def statusName : TaskStatus → String
  | .OPEN => "OPEN"
  | .PICKED_UP => "PICKED_UP"
  | .IN_TRANSIT => "IN_TRANSIT"
  | .DROPPED_OFF => "DROPPED_OFF"
  | .TAKEN_OVER => "TAKEN_OVER"
  | .WEIGHED => "WEIGHED"
  | .DISPOSED => "DISPOSED"
  | .CANCELLED => "CANCELLED"

/-- The eight automotive status names documented in README_STATS.md and used
by the client screens. -/
def automotiveStatusNames : List String :=
  ["OPEN", "PICKED_UP", "IN_TRANSIT", "DROPPED_OFF", "TAKEN_OVER", "WEIGHED",
   "DISPOSED", "CANCELLED"]

/-! ## Audit-log reconstruction -/

/-- The audit events of one task, in log (= timestamp) order. -/
def eventsFor (st : StoreState) (tid : Nat) : List TaskEvent :=
  st.events.filter (fun e => e.taskId == tid)

/-- Fold a task's events in order, starting from nothing and applying each
event's `toStatus` in turn; the creation event contributes the initial
status. -/
def replayStatus (evs : List TaskEvent) : Option TaskStatus :=
  evs.foldl (fun _ e => some e.toStatus) none

/-- Store well-formedness: task ids are unique and below the id counter, event
task ids are below the counter, event timestamps are exactly the log
positions, and every task's event sequence starts with a creation event,
links `fromStatus` to the preceding `toStatus`, and replays to the task's
current status. -/
structure Inv (st : StoreState) : Prop where
  idsNodup : (st.tasks.map Task.id).Nodup
  idsLt : ∀ t ∈ st.tasks, t.id < st.nextId
  evIdsLt : ∀ e ∈ st.events, e.taskId < st.nextId
  times : st.events.map TaskEvent.timestamp = List.range st.events.length
  headCreation : ∀ t ∈ st.tasks,
    ∃ e evs, eventsFor st t.id = e :: evs ∧ e.fromStatus = none
  chainLink : ∀ t ∈ st.tasks,
    List.Chain' (fun a b => b.fromStatus = some a.toStatus) (eventsFor st t.id)
  replayEq : ∀ t ∈ st.tasks, replayStatus (eventsFor st t.id) = some t.status

/-- The operations of the subsystem that touch the store: a lifecycle
transition, a task creation, and a generation run. -/
inductive StoreStep : StoreState → StoreState → Prop where
  | lifecycle (st : StoreState) (ok : Bool) (tid : Nat) (s : TaskStatus)
      (actor : Actor) (reason : Option String) (st' : StoreState) :
      transition st ok tid s actor reason = .ok st' → StoreStep st st'
  | create (st : StoreState) (ty : String) (k : Option String)
      (sched : Option Int) : StoreStep st (insertNewTask st ty k sched)
  | generation (st : StoreState) (faults : String → Option String)
      (today : String) : StoreStep st (runDailyGeneration faults today st).1

/-- Reachability by any finite sequence of operations. -/
def Reach : StoreState → StoreState → Prop := Relation.ReflTransGen StoreStep

/-- Content projection of an audit event: everything except the id and
timestamp assigned by the log. -/
def evProj (e : TaskEvent) :
    Nat × Option TaskStatus × TaskStatus × Actor × Option String :=
  (e.taskId, e.fromStatus, e.toStatus, e.actor, e.reason)

/-! ## Helper lemmas -/

theorem validTransition_iff (a b : TaskStatus) :
    validTransition a b = true ↔
      ((a = .OPEN ∧ b = .PICKED_UP) ∨ (a = .PICKED_UP ∧ b = .IN_TRANSIT) ∨
       (a = .IN_TRANSIT ∧ b = .DROPPED_OFF) ∨
       (a = .DROPPED_OFF ∧ b = .TAKEN_OVER) ∨
       (a = .TAKEN_OVER ∧ b = .WEIGHED) ∨ (a = .WEIGHED ∧ b = .DISPOSED) ∨
       (b = .CANCELLED ∧ a ≠ .DISPOSED ∧ a ≠ .CANCELLED)) := by
  cases a <;> cases b <;> decide

theorem find_task_of_mem (l : List Task) (t : Task)
    (h : (l.map Task.id).Nodup) (hm : t ∈ l) :
    l.find? (fun u => u.id == t.id) = some t := by
  induction l with
  | nil => simp at hm
  | cons a rest ih =>
    simp only [List.map_cons, List.nodup_cons] at h
    rw [List.mem_cons] at hm
    rcases hm with rfl | hm
    · simp [List.find?]
    · rw [List.find?]
      have hne : (a.id == t.id) = false := by
        simp only [beq_eq_false_iff_ne, ne_eq]
        intro he
        exact h.1 (he ▸ List.mem_map_of_mem Task.id hm)
      rw [hne]
      exact ih h.2 hm

theorem transition_found {st : StoreState} {tid : Nat} {t : Task}
    (h : findTask st tid = some t) (ok : Bool) (s : TaskStatus)
    (actor : Actor) (reason : Option String) :
    transition st ok tid s actor reason =
      if validTransition t.status s then
        if ok then
          Except.ok { st with
            tasks := st.tasks.map (fun u =>
              if u.id == tid then applyTransitionTask st.events.length u s
              else u),
            events := st.events ++ [mkEvent st t s actor reason] }
        else Except.error LifecycleErr.persistenceErr
      else Except.error (LifecycleErr.invalidTransition t.status s) := by
  unfold transition
  rw [h]

/-- C1: `transition` succeeds exactly on the edges of the chain
OPEN→PICKED_UP→IN_TRANSIT→DROPPED_OFF→TAKEN_OVER→WEIGHED→DISPOSED, or when the
requested status is CANCELLED and the current status is neither DISPOSED nor
CANCELLED; every other pair fails with InvalidTransition reporting the current
and requested status, and in particular any attempt on a DISPOSED or CANCELLED
task fails with InvalidTransition. -/
theorem C1_transition_validity (st : StoreState) (tid : Nat) (t : Task)
    (s : TaskStatus) (actor : Actor) (reason : Option String)
    (h : findTask st tid = some t) :
    ((∃ st', transition st true tid s actor reason = Except.ok st') ↔
      ((t.status = .OPEN ∧ s = .PICKED_UP) ∨
       (t.status = .PICKED_UP ∧ s = .IN_TRANSIT) ∨
       (t.status = .IN_TRANSIT ∧ s = .DROPPED_OFF) ∨
       (t.status = .DROPPED_OFF ∧ s = .TAKEN_OVER) ∨
       (t.status = .TAKEN_OVER ∧ s = .WEIGHED) ∨
       (t.status = .WEIGHED ∧ s = .DISPOSED) ∨
       (s = .CANCELLED ∧ t.status ≠ .DISPOSED ∧ t.status ≠ .CANCELLED))) ∧
    (¬((t.status = .OPEN ∧ s = .PICKED_UP) ∨
       (t.status = .PICKED_UP ∧ s = .IN_TRANSIT) ∨
       (t.status = .IN_TRANSIT ∧ s = .DROPPED_OFF) ∨
       (t.status = .DROPPED_OFF ∧ s = .TAKEN_OVER) ∨
       (t.status = .TAKEN_OVER ∧ s = .WEIGHED) ∨
       (t.status = .WEIGHED ∧ s = .DISPOSED) ∨
       (s = .CANCELLED ∧ t.status ≠ .DISPOSED ∧ t.status ≠ .CANCELLED)) →
      transition st true tid s actor reason
        = Except.error (LifecycleErr.invalidTransition t.status s)) ∧
    ((t.status = .DISPOSED ∨ t.status = .CANCELLED) →
      transition st true tid s actor reason
        = Except.error (LifecycleErr.invalidTransition t.status s)) := by
  have hiff := validTransition_iff t.status s
  rw [transition_found h]
  by_cases hv : validTransition t.status s = true
  · rw [hv]
    refine ⟨?_, ?_, ?_⟩
    · simp only [if_true]
      exact ⟨fun _ => hiff.mp hv, fun _ => ⟨_, rfl⟩⟩
    · intro hcon
      exact absurd (hiff.mp hv) hcon
    · intro hterm
      exfalso
      rcases hterm with h' | h' <;>
        · rw [h'] at hv
          revert hv
          cases s <;> decide
  · rw [Bool.not_eq_true] at hv
    rw [hv]
    refine ⟨?_, fun _ => rfl, fun _ => rfl⟩
    simp only [Bool.false_eq_true, if_false]
    constructor
    · rintro ⟨st', hst'⟩
      exact absurd hst' (by simp)
    · intro hd
      exact absurd (hiff.mpr hd) (by rw [hv]; simp)

/-- Witness for C1 at a concrete one-task store with an OPEN task. -/
theorem C1_transition_validity_witness :
    findTask ⟨[], [⟨0, TaskStatus.OPEN, "MANUAL", none, none, []⟩], [], 1⟩ 0
        = some ⟨0, TaskStatus.OPEN, "MANUAL", none, none, []⟩ ∧
    (((∃ st', transition ⟨[], [⟨0, TaskStatus.OPEN, "MANUAL", none, none, []⟩],
          [], 1⟩ true 0 TaskStatus.PICKED_UP Actor.system none
            = Except.ok st') ↔
      ((TaskStatus.OPEN = .OPEN ∧ TaskStatus.PICKED_UP = .PICKED_UP) ∨
       (TaskStatus.OPEN = .PICKED_UP ∧ TaskStatus.PICKED_UP = .IN_TRANSIT) ∨
       (TaskStatus.OPEN = .IN_TRANSIT ∧ TaskStatus.PICKED_UP = .DROPPED_OFF) ∨
       (TaskStatus.OPEN = .DROPPED_OFF ∧ TaskStatus.PICKED_UP = .TAKEN_OVER) ∨
       (TaskStatus.OPEN = .TAKEN_OVER ∧ TaskStatus.PICKED_UP = .WEIGHED) ∨
       (TaskStatus.OPEN = .WEIGHED ∧ TaskStatus.PICKED_UP = .DISPOSED) ∨
       (TaskStatus.PICKED_UP = .CANCELLED ∧ TaskStatus.OPEN ≠ .DISPOSED ∧
         TaskStatus.OPEN ≠ .CANCELLED))) ∧
    (¬((TaskStatus.OPEN = .OPEN ∧ TaskStatus.PICKED_UP = .PICKED_UP) ∨
       (TaskStatus.OPEN = .PICKED_UP ∧ TaskStatus.PICKED_UP = .IN_TRANSIT) ∨
       (TaskStatus.OPEN = .IN_TRANSIT ∧ TaskStatus.PICKED_UP = .DROPPED_OFF) ∨
       (TaskStatus.OPEN = .DROPPED_OFF ∧ TaskStatus.PICKED_UP = .TAKEN_OVER) ∨
       (TaskStatus.OPEN = .TAKEN_OVER ∧ TaskStatus.PICKED_UP = .WEIGHED) ∨
       (TaskStatus.OPEN = .WEIGHED ∧ TaskStatus.PICKED_UP = .DISPOSED) ∨
       (TaskStatus.PICKED_UP = .CANCELLED ∧ TaskStatus.OPEN ≠ .DISPOSED ∧
         TaskStatus.OPEN ≠ .CANCELLED)) →
      transition ⟨[], [⟨0, TaskStatus.OPEN, "MANUAL", none, none, []⟩], [], 1⟩
          true 0 TaskStatus.PICKED_UP Actor.system none
        = Except.error
            (LifecycleErr.invalidTransition TaskStatus.OPEN
              TaskStatus.PICKED_UP)) ∧
    ((TaskStatus.OPEN = .DISPOSED ∨ TaskStatus.OPEN = .CANCELLED) →
      transition ⟨[], [⟨0, TaskStatus.OPEN, "MANUAL", none, none, []⟩], [], 1⟩
          true 0 TaskStatus.PICKED_UP Actor.system none
        = Except.error
            (LifecycleErr.invalidTransition TaskStatus.OPEN
              TaskStatus.PICKED_UP))) :=
  ⟨by decide,
   C1_transition_validity _ 0 ⟨0, TaskStatus.OPEN, "MANUAL", none, none, []⟩
     TaskStatus.PICKED_UP Actor.system none (by decide)⟩

/-- C2: for a valid transition the engine atomically performs both writes —
the task-row update (status plus stage stamp) and the append of exactly one
TaskEvent whose `fromStatus` is the task's current status and whose `toStatus`
is the requested one; for an invalid pair, and whenever the underlying store
fails, the store is returned exactly unchanged: no event is written and the
task row stays as it was. -/
theorem C2_transition_atomicity (st : StoreState) (ok : Bool) (tid : Nat)
    (t : Task) (s : TaskStatus) (actor : Actor) (reason : Option String)
    (h : findTask st tid = some t) :
    (validTransition t.status s = true → ok = true →
      (transitionRun st ok tid s actor reason).2 = none ∧
      (transitionRun st ok tid s actor reason).1.events
        = st.events ++ [mkEvent st t s actor reason] ∧
      (mkEvent st t s actor reason).fromStatus = some t.status ∧
      (mkEvent st t s actor reason).toStatus = s ∧
      (transitionRun st ok tid s actor reason).1.tasks
        = st.tasks.map (fun u =>
            if u.id == tid then applyTransitionTask st.events.length u s
            else u)) ∧
    (validTransition t.status s = false →
      transitionRun st ok tid s actor reason
        = (st, some (LifecycleErr.invalidTransition t.status s))) ∧
    (ok = false → validTransition t.status s = true →
      transitionRun st ok tid s actor reason
        = (st, some LifecycleErr.persistenceErr)) := by
  unfold transitionRun
  rw [transition_found h]
  refine ⟨?_, ?_, ?_⟩
  · intro hv hok
    rw [hv, hok]
    exact ⟨rfl, rfl, rfl, rfl, rfl⟩
  · intro hv
    rw [hv]
    rfl
  · intro hok hv
    rw [hv, hok]
    rfl

/-- Witness for C2 at a concrete one-task store: a valid pair appends exactly
one event and an injected store failure leaves the store unchanged. -/
theorem C2_transition_atomicity_witness :
    findTask ⟨[], [⟨7, TaskStatus.WEIGHED, "MANUAL", none, none, []⟩], [], 8⟩ 7
        = some ⟨7, TaskStatus.WEIGHED, "MANUAL", none, none, []⟩ ∧
    ((validTransition TaskStatus.WEIGHED TaskStatus.DISPOSED = true →
      true = true →
      (transitionRun ⟨[], [⟨7, TaskStatus.WEIGHED, "MANUAL", none, none, []⟩],
          [], 8⟩ true 7 TaskStatus.DISPOSED Actor.system none).2 = none ∧
      (transitionRun ⟨[], [⟨7, TaskStatus.WEIGHED, "MANUAL", none, none, []⟩],
          [], 8⟩ true 7 TaskStatus.DISPOSED Actor.system none).1.events
        = [].append [mkEvent ⟨[],
            [⟨7, TaskStatus.WEIGHED, "MANUAL", none, none, []⟩], [], 8⟩
            ⟨7, TaskStatus.WEIGHED, "MANUAL", none, none, []⟩
            TaskStatus.DISPOSED Actor.system none] ∧
      (mkEvent ⟨[], [⟨7, TaskStatus.WEIGHED, "MANUAL", none, none, []⟩],
          [], 8⟩ ⟨7, TaskStatus.WEIGHED, "MANUAL", none, none, []⟩
          TaskStatus.DISPOSED Actor.system none).fromStatus
        = some TaskStatus.WEIGHED ∧
      (mkEvent ⟨[], [⟨7, TaskStatus.WEIGHED, "MANUAL", none, none, []⟩],
          [], 8⟩ ⟨7, TaskStatus.WEIGHED, "MANUAL", none, none, []⟩
          TaskStatus.DISPOSED Actor.system none).toStatus
        = TaskStatus.DISPOSED ∧
      (transitionRun ⟨[], [⟨7, TaskStatus.WEIGHED, "MANUAL", none, none, []⟩],
          [], 8⟩ true 7 TaskStatus.DISPOSED Actor.system none).1.tasks
        = [⟨7, TaskStatus.WEIGHED, "MANUAL", none, none, []⟩].map (fun u =>
            if u.id == 7 then applyTransitionTask 0 u TaskStatus.DISPOSED
            else u)) ∧
    (validTransition TaskStatus.WEIGHED TaskStatus.DISPOSED = false →
      transitionRun ⟨[], [⟨7, TaskStatus.WEIGHED, "MANUAL", none, none, []⟩],
          [], 8⟩ true 7 TaskStatus.DISPOSED Actor.system none
        = (⟨[], [⟨7, TaskStatus.WEIGHED, "MANUAL", none, none, []⟩], [], 8⟩,
           some (LifecycleErr.invalidTransition TaskStatus.WEIGHED
             TaskStatus.DISPOSED))) ∧
    (true = false → validTransition TaskStatus.WEIGHED TaskStatus.DISPOSED
        = true →
      transitionRun ⟨[], [⟨7, TaskStatus.WEIGHED, "MANUAL", none, none, []⟩],
          [], 8⟩ true 7 TaskStatus.DISPOSED Actor.system none
        = (⟨[], [⟨7, TaskStatus.WEIGHED, "MANUAL", none, none, []⟩], [], 8⟩,
           some LifecycleErr.persistenceErr))) :=
  ⟨by decide,
   C2_transition_atomicity _ true 7
     ⟨7, TaskStatus.WEIGHED, "MANUAL", none, none, []⟩
     TaskStatus.DISPOSED Actor.system none (by decide)⟩

/-- C7: the status domain is NOT the closed set claimed — the `task_status`
enum declared in supabase-bootstrap.sql rejects five of the eight documented
automotive statuses (OPEN, DROPPED_OFF, TAKEN_OVER, WEIGHED, DISPOSED) and
contains values (e.g. PLANNED) outside the documented set, while every status
the lifecycle code uses is one of the eight documented names and the generator
creates tasks with status OPEN, which the enum cannot store. -/
theorem C7_status_enum_mismatch :
    (∀ a : TaskStatus, statusName a ∈ automotiveStatusNames) ∧
    ("OPEN" ∈ automotiveStatusNames ∧ "OPEN" ∉ sqlTaskStatusValues) ∧
    ("DROPPED_OFF" ∉ sqlTaskStatusValues) ∧
    ("TAKEN_OVER" ∉ sqlTaskStatusValues) ∧
    ("WEIGHED" ∉ sqlTaskStatusValues) ∧
    ("DISPOSED" ∉ sqlTaskStatusValues) ∧
    ("PLANNED" ∈ sqlTaskStatusValues ∧ "PLANNED" ∉ automotiveStatusNames) ∧
    statusName (newTask ⟨[], [], [], 0⟩ dailyFullType none none).status
      ∉ sqlTaskStatusValues :=
  ⟨fun a => by cases a <;> decide, by decide⟩

/-- C9: the scheduler guard serializes generation runs — every trace of guard
steps from the idle state is accepted by the no-overlap acceptor (a run can
begin only while no run is active), a trigger arriving while a run is in
progress is rejected with 409 and changes nothing, the only step out of the
idle state is the start of a run, and the admin endpoint returns 409 without
running while busy and otherwise performs one generation run and returns its
summary synchronously. -/
theorem C9_single_run_guard :
    (∀ (b : Bool) (evs : List SchedEvent) (s : SchedState),
      SchedTrace ⟨b⟩ evs s → serializedRuns b evs = some s.inProgress) ∧
    (∀ (s s' : SchedState) (e : SchedEvent), SchedStep s e s' →
      s.inProgress = true →
      e ≠ SchedEvent.beginRun ∧ (e = SchedEvent.reject409 → s' = s)) ∧
    (∀ (s s' : SchedState) (e : SchedEvent), SchedStep s e s' →
      s.inProgress = false → e = SchedEvent.beginRun ∧ s'.inProgress = true) ∧
    (∀ (faults : String → Option String) (today : String) (st : StoreState),
      postDailyTasksRun faults today true st = ((true, st), RunResp.conflict409)) ∧
    (∀ (faults : String → Option String) (today : String) (st : StoreState),
      postDailyTasksRun faults today false st
        = ((false, (runDailyGeneration faults today st).1),
           RunResp.summary (runDailyGeneration faults today st).2)) := by
  refine ⟨?_, ?_, ?_, fun _ _ _ => rfl, fun _ _ _ => rfl⟩
  · intro b evs
    induction evs generalizing b with
    | nil =>
      intro s h
      cases h
      rfl
    | cons e rest ih =>
      intro s h
      cases h with
      | cons hstep htail =>
        cases hstep with
        | triggerFree hfree =>
          simp only at hfree
          subst hfree
          simpa [serializedRuns] using ih true _ htail
        | triggerBusy hbusy =>
          simp only at hbusy
          subst hbusy
          simpa [serializedRuns] using ih true _ htail
        | finish hbusy =>
          simp only at hbusy
          subst hbusy
          simpa [serializedRuns] using ih false _ htail
  · intro s s' e hstep hbusy
    cases hstep with
    | triggerFree hfree => rw [hfree] at hbusy; cases hbusy
    | triggerBusy _ => exact ⟨by simp, fun _ => rfl⟩
    | finish hb => exact ⟨by simp, fun hc => by cases hc⟩
  · intro s s' e hstep hfree
    cases hstep with
    | triggerFree _ => exact ⟨rfl, rfl⟩
    | triggerBusy hb => rw [hb] at hfree; cases hfree
    | finish hb => rw [hb] at hfree; cases hfree

/-- C5: exactly the duplicate-key condition (code "23505"), whether signalled
by the store's uniqueness constraint or injected as a fault, is swallowed as
success-no-op — the accumulator is unchanged and the loop continues with the
remaining stands — while any other persistence error code is recorded as that
stand's failure (the store untouched) and the loop likewise continues with
the remaining stands. -/
theorem C5_duplicate_key_swallowed (faults : String → Option String)
    (today : String) (acc : InsertAcc) (s : Stand) (ss : List Stand)
    (code : String) :
    (faults (mkDedupKey s.id today) = some "23505" →
      insertForStand faults today acc s = acc ∧
      insertAll faults today acc (s :: ss) = insertAll faults today acc ss) ∧
    (faults (mkDedupKey s.id today) = some code → code ≠ "23505" →
      insertForStand faults today acc s
        = { acc with failures := acc.failures ++ [(s.id, code)] } ∧
      insertAll faults today acc (s :: ss)
        = insertAll faults today
            { acc with failures := acc.failures ++ [(s.id, code)] } ss) ∧
    (faults (mkDedupKey s.id today) = none →
      keyExists acc.st (mkDedupKey s.id today) = true →
      insertForStand faults today acc s = acc ∧
      insertAll faults today acc (s :: ss) = insertAll faults today acc ss) := by
  refine ⟨?_, ?_, ?_⟩
  · intro hf
    have hstep : insertForStand faults today acc s = acc := by
      unfold insertForStand insertOutcome
      rw [hf]
      simp
    exact ⟨hstep, by rw [insertAll, hstep]⟩
  · intro hf hne
    have hstep : insertForStand faults today acc s
        = { acc with failures := acc.failures ++ [(s.id, code)] } := by
      unfold insertForStand insertOutcome
      rw [hf]
      simp only
      rw [if_neg (by simpa using hne)]
    exact ⟨hstep, by rw [insertAll, hstep]⟩
  · intro hf hk
    have hstep : insertForStand faults today acc s = acc := by
      unfold insertForStand insertOutcome
      rw [hf, hk]
      simp
    exact ⟨hstep, by rw [insertAll, hstep]⟩

/-- Witness for C5: an injected duplicate-key fault is swallowed, an injected
"40001" fault is recorded as the stand's failure, and a real key collision is
swallowed, at concrete stores. -/
theorem C5_duplicate_key_swallowed_witness :
    ((fun k => if k = "DAILY:s1:2025-12-12" then some "23505" else none)
        (mkDedupKey "s1" "2025-12-12") = some "23505" →
      insertForStand
          (fun k => if k = "DAILY:s1:2025-12-12" then some "23505" else none)
          "2025-12-12" ⟨⟨[], [], [], 0⟩, 0, []⟩ ⟨"s1", true, true⟩
        = ⟨⟨[], [], [], 0⟩, 0, []⟩ ∧
      insertAll
          (fun k => if k = "DAILY:s1:2025-12-12" then some "23505" else none)
          "2025-12-12" ⟨⟨[], [], [], 0⟩, 0, []⟩
          (⟨"s1", true, true⟩ :: [⟨"s2", true, true⟩])
        = insertAll
            (fun k => if k = "DAILY:s1:2025-12-12" then some "23505" else none)
            "2025-12-12" ⟨⟨[], [], [], 0⟩, 0, []⟩ [⟨"s2", true, true⟩]) ∧
    ((fun k => if k = "DAILY:s1:2025-12-12" then some "23505" else none)
        (mkDedupKey "s1" "2025-12-12") = some "40001" → "40001" ≠ "23505" →
      insertForStand
          (fun k => if k = "DAILY:s1:2025-12-12" then some "23505" else none)
          "2025-12-12" ⟨⟨[], [], [], 0⟩, 0, []⟩ ⟨"s1", true, true⟩
        = ⟨⟨[], [], [], 0⟩, 0, [("s1", "40001")]⟩ ∧
      insertAll
          (fun k => if k = "DAILY:s1:2025-12-12" then some "23505" else none)
          "2025-12-12" ⟨⟨[], [], [], 0⟩, 0, []⟩
          (⟨"s1", true, true⟩ :: [⟨"s2", true, true⟩])
        = insertAll
            (fun k => if k = "DAILY:s1:2025-12-12" then some "23505" else none)
            "2025-12-12" ⟨⟨[], [], [], 0⟩, 0, [("s1", "40001")]⟩
            [⟨"s2", true, true⟩]) ∧
    ((fun k => if k = "DAILY:s1:2025-12-12" then some "23505" else none)
        (mkDedupKey "s1" "2025-12-12") = none →
      keyExists ⟨[], [], [], 0⟩ (mkDedupKey "s1" "2025-12-12") = true →
      insertForStand
          (fun k => if k = "DAILY:s1:2025-12-12" then some "23505" else none)
          "2025-12-12" ⟨⟨[], [], [], 0⟩, 0, []⟩ ⟨"s1", true, true⟩
        = ⟨⟨[], [], [], 0⟩, 0, []⟩ ∧
      insertAll
          (fun k => if k = "DAILY:s1:2025-12-12" then some "23505" else none)
          "2025-12-12" ⟨⟨[], [], [], 0⟩, 0, []⟩
          (⟨"s1", true, true⟩ :: [⟨"s2", true, true⟩])
        = insertAll
            (fun k => if k = "DAILY:s1:2025-12-12" then some "23505" else none)
            "2025-12-12" ⟨⟨[], [], [], 0⟩, 0, []⟩ [⟨"s2", true, true⟩]) :=
  C5_duplicate_key_swallowed
    (fun k => if k = "DAILY:s1:2025-12-12" then some "23505" else none)
    "2025-12-12" ⟨⟨[], [], [], 0⟩, 0, []⟩ ⟨"s1", true, true⟩
    [⟨"s2", true, true⟩] "40001"

theorem mem_push (tomorrow : Int) (r : Categorized) (a t : UiTask)
    (c : CategoryTab) :
    t ∈ tabList (pushCategorized tomorrow r a) c ↔
      t ∈ tabList r c ∨ (t = a ∧ categorizeTask tomorrow a = some c) := by
  unfold pushCategorized
  cases hcat : categorizeTask tomorrow a with
  | none => simp
  | some tb => cases tb <;> cases c <;> simp [tabList, List.mem_append]

theorem mem_categorized_fold (tomorrow : Int) (tasks : List UiTask)
    (r : Categorized) (t : UiTask) (c : CategoryTab) :
    t ∈ tabList (tasks.foldl (pushCategorized tomorrow) r) c ↔
      t ∈ tabList r c ∨ (t ∈ tasks ∧ categorizeTask tomorrow t = some c) := by
  induction tasks generalizing r with
  | nil => simp
  | cons a ts ih =>
    rw [List.foldl_cons, ih, mem_push, List.mem_cons]
    constructor
    · rintro ((h | ⟨rfl, hc⟩) | ⟨hm, hc⟩)
      · exact Or.inl h
      · exact Or.inr ⟨Or.inl rfl, hc⟩
      · exact Or.inr ⟨Or.inr hm, hc⟩
    · rintro (h | ⟨rfl | hm, hc⟩)
      · exact Or.inl (Or.inl h)
      · exact Or.inl (Or.inr ⟨rfl, hc⟩)
      · exact Or.inr ⟨hm, hc⟩

theorem mem_categorizedTasks (tomorrow : Int) (tasks : List UiTask)
    (t : UiTask) (c : CategoryTab) :
    t ∈ tabList (categorizedTasks tomorrow tasks) c ↔
      t ∈ tasks ∧ categorizeTask tomorrow t = some c := by
  unfold categorizedTasks
  rw [mem_categorized_fold]
  cases c <;> simp [tabList, emptyCategorized]

theorem catTask_geplant_iff (tomorrow : Int) (t : UiTask) :
    categorizeTask tomorrow t = some CategoryTab.geplant ↔
      t.status = "OPEN" ∧ ∃ d, t.scheduledFor = some d ∧ tomorrow ≤ d := by
  unfold categorizeTask
  cases hs : t.scheduledFor with
  | none =>
    simp [offenStatuses, unterwegsStatuses, abgestelltStatuses,
      entsorgungStatuses, abgeschlossenStatuses]
    split_ifs <;> simp_all
  | some d =>
    by_cases hle : tomorrow ≤ d <;>
      · simp [offenStatuses, unterwegsStatuses, abgestelltStatuses,
          entsorgungStatuses, abgeschlossenStatuses, hle]
        split_ifs <;> simp_all

theorem catTask_offen_iff (tomorrow : Int) (t : UiTask) :
    categorizeTask tomorrow t = some CategoryTab.offen ↔
      t.status = "OPEN" ∧ ¬∃ d, t.scheduledFor = some d ∧ tomorrow ≤ d := by
  unfold categorizeTask
  cases hs : t.scheduledFor with
  | none =>
    simp [offenStatuses, unterwegsStatuses, abgestelltStatuses,
      entsorgungStatuses, abgeschlossenStatuses]
    split_ifs <;> simp_all
  | some d =>
    by_cases hle : tomorrow ≤ d <;>
      · simp [offenStatuses, unterwegsStatuses, abgestelltStatuses,
          entsorgungStatuses, abgeschlossenStatuses, hle]
        split_ifs <;> simp_all

theorem catTask_unterwegs_iff (tomorrow : Int) (t : UiTask) :
    categorizeTask tomorrow t = some CategoryTab.unterwegs ↔
      t.status = "PICKED_UP" ∨ t.status = "IN_TRANSIT" := by
  unfold categorizeTask
  cases hs : t.scheduledFor with
  | none =>
    simp [offenStatuses, unterwegsStatuses, abgestelltStatuses,
      entsorgungStatuses, abgeschlossenStatuses]
    split_ifs <;> simp_all
  | some d =>
    by_cases hle : tomorrow ≤ d <;>
      · simp [offenStatuses, unterwegsStatuses, abgestelltStatuses,
          entsorgungStatuses, abgeschlossenStatuses, hle]
        split_ifs <;> simp_all

theorem catTask_abgestellt_iff (tomorrow : Int) (t : UiTask) :
    categorizeTask tomorrow t = some CategoryTab.abgestellt ↔
      t.status = "DROPPED_OFF" := by
  unfold categorizeTask
  cases hs : t.scheduledFor with
  | none =>
    simp [offenStatuses, unterwegsStatuses, abgestelltStatuses,
      entsorgungStatuses, abgeschlossenStatuses]
    split_ifs <;> simp_all <;> casesm* _ ∨ _ <;> simp_all
  | some d =>
    by_cases hle : tomorrow ≤ d <;>
      · simp [offenStatuses, unterwegsStatuses, abgestelltStatuses,
          entsorgungStatuses, abgeschlossenStatuses, hle]
        split_ifs <;> simp_all <;> casesm* _ ∨ _ <;> simp_all

theorem catTask_entsorgung_iff (tomorrow : Int) (t : UiTask) :
    categorizeTask tomorrow t = some CategoryTab.entsorgung ↔
      t.status = "TAKEN_OVER" ∨ t.status = "WEIGHED" := by
  unfold categorizeTask
  cases hs : t.scheduledFor with
  | none =>
    simp [offenStatuses, unterwegsStatuses, abgestelltStatuses,
      entsorgungStatuses, abgeschlossenStatuses]
    split_ifs <;> simp_all <;> casesm* _ ∨ _ <;> simp_all
  | some d =>
    by_cases hle : tomorrow ≤ d <;>
      · simp [offenStatuses, unterwegsStatuses, abgestelltStatuses,
          entsorgungStatuses, abgeschlossenStatuses, hle]
        split_ifs <;> simp_all <;> casesm* _ ∨ _ <;> simp_all

theorem catTask_abgeschlossen_iff (tomorrow : Int) (t : UiTask) :
    categorizeTask tomorrow t = some CategoryTab.abgeschlossen ↔
      t.status = "DISPOSED" ∨ t.status = "CANCELLED" := by
  unfold categorizeTask
  cases hs : t.scheduledFor with
  | none =>
    simp [offenStatuses, unterwegsStatuses, abgestelltStatuses,
      entsorgungStatuses, abgeschlossenStatuses]
    split_ifs <;> simp_all <;> casesm* _ ∨ _ <;> simp_all
  | some d =>
    by_cases hle : tomorrow ≤ d <;>
      · simp [offenStatuses, unterwegsStatuses, abgestelltStatuses,
          entsorgungStatuses, abgeschlossenStatuses, hle]
        split_ifs <;> simp_all <;> casesm* _ ∨ _ <;> simp_all

/-- C10: the tasks screen places each fetched task in at most one tab — an
OPEN task scheduled at or after the start of tomorrow goes to "geplant" and is
excluded from "offen"; every other task goes to the unique tab whose status
list contains its status (offen OPEN; unterwegs PICKED_UP, IN_TRANSIT;
abgestellt DROPPED_OFF; entsorgung TAKEN_OVER, WEIGHED; abgeschlossen
DISPOSED, CANCELLED); a task whose status is outside these eight values
appears in no tab. -/
theorem C10_tab_placement (tomorrow : Int) (tasks : List UiTask)
    (t : UiTask) :
    (∀ c c' : CategoryTab, t ∈ tabList (categorizedTasks tomorrow tasks) c →
      t ∈ tabList (categorizedTasks tomorrow tasks) c' → c = c') ∧
    (t ∈ (categorizedTasks tomorrow tasks).geplant ↔
      t ∈ tasks ∧ t.status = "OPEN" ∧
        ∃ d, t.scheduledFor = some d ∧ tomorrow ≤ d) ∧
    (t ∈ (categorizedTasks tomorrow tasks).offen ↔
      t ∈ tasks ∧ t.status = "OPEN" ∧
        ¬∃ d, t.scheduledFor = some d ∧ tomorrow ≤ d) ∧
    (t ∈ (categorizedTasks tomorrow tasks).unterwegs ↔
      t ∈ tasks ∧ (t.status = "PICKED_UP" ∨ t.status = "IN_TRANSIT")) ∧
    (t ∈ (categorizedTasks tomorrow tasks).abgestellt ↔
      t ∈ tasks ∧ t.status = "DROPPED_OFF") ∧
    (t ∈ (categorizedTasks tomorrow tasks).entsorgung ↔
      t ∈ tasks ∧ (t.status = "TAKEN_OVER" ∨ t.status = "WEIGHED")) ∧
    (t ∈ (categorizedTasks tomorrow tasks).abgeschlossen ↔
      t ∈ tasks ∧ (t.status = "DISPOSED" ∨ t.status = "CANCELLED")) ∧
    (t.status ∉ automotiveStatusNames →
      ∀ c : CategoryTab, t ∉ tabList (categorizedTasks tomorrow tasks) c) := by
  refine ⟨?_, ?_, ?_, ?_, ?_, ?_, ?_, ?_⟩
  · intro c c' hc hc'
    rw [mem_categorizedTasks] at hc hc'
    have := hc.2.symm.trans hc'.2
    exact Option.some.inj this
  · rw [show (categorizedTasks tomorrow tasks).geplant
        = tabList (categorizedTasks tomorrow tasks) CategoryTab.geplant
      from rfl, mem_categorizedTasks, catTask_geplant_iff]
  · rw [show (categorizedTasks tomorrow tasks).offen
        = tabList (categorizedTasks tomorrow tasks) CategoryTab.offen
      from rfl, mem_categorizedTasks, catTask_offen_iff]
  · rw [show (categorizedTasks tomorrow tasks).unterwegs
        = tabList (categorizedTasks tomorrow tasks) CategoryTab.unterwegs
      from rfl, mem_categorizedTasks, catTask_unterwegs_iff]
  · rw [show (categorizedTasks tomorrow tasks).abgestellt
        = tabList (categorizedTasks tomorrow tasks) CategoryTab.abgestellt
      from rfl, mem_categorizedTasks, catTask_abgestellt_iff]
  · rw [show (categorizedTasks tomorrow tasks).entsorgung
        = tabList (categorizedTasks tomorrow tasks) CategoryTab.entsorgung
      from rfl, mem_categorizedTasks, catTask_entsorgung_iff]
  · rw [show (categorizedTasks tomorrow tasks).abgeschlossen
        = tabList (categorizedTasks tomorrow tasks) CategoryTab.abgeschlossen
      from rfl, mem_categorizedTasks, catTask_abgeschlossen_iff]
  · intro hout c hmem
    rw [mem_categorizedTasks] at hmem
    apply hout
    cases c
    · rw [((catTask_offen_iff tomorrow t).mp hmem.2).1]; decide
    · rcases (catTask_unterwegs_iff tomorrow t).mp hmem.2 with h | h <;>
        rw [h] <;> decide
    · rw [(catTask_abgestellt_iff tomorrow t).mp hmem.2]; decide
    · rcases (catTask_entsorgung_iff tomorrow t).mp hmem.2 with h | h <;>
        rw [h] <;> decide
    · rcases (catTask_abgeschlossen_iff tomorrow t).mp hmem.2 with h | h <;>
        rw [h] <;> decide
    · rw [((catTask_geplant_iff tomorrow t).mp hmem.2).1]; decide

theorem forall2_trans {α : Type} {R S T : α → α → Prop} {l₁ l₂ l₃ : List α}
    (hc : ∀ a b c, R a b → S b c → T a c) (h1 : List.Forall₂ R l₁ l₂)
    (h2 : List.Forall₂ S l₂ l₃) : List.Forall₂ T l₁ l₃ := by
  induction h1 generalizing l₃ with
  | nil =>
    cases h2
    exact List.Forall₂.nil
  | cons hr _ ih =>
    cases h2 with
    | cons hs ht => exact List.Forall₂.cons (hc _ _ _ hr hs) (ih ht)

theorem map_id_after_update (l : List Task) (tid : Nat) (n : Nat)
    (s : TaskStatus) :
    (l.map (fun u => if u.id == tid then applyTransitionTask n u s else u)).map
        Task.id
      = l.map Task.id := by
  rw [List.map_map]
  apply List.map_congr_left
  intro u _
  by_cases h : (u.id == tid) = true <;>
    simp [Function.comp, h, applyTransitionTask]

theorem transition_cancel_ok {st : StoreState} {t : Task}
    (h1 : (st.tasks.map Task.id).Nodup) (hm : t ∈ st.tasks)
    (hop : t.status = TaskStatus.OPEN) :
    transition st true t.id TaskStatus.CANCELLED Actor.system
        (some autoCancelReason)
      = Except.ok { st with
          tasks := st.tasks.map (fun u =>
            if u.id == t.id then
              applyTransitionTask st.events.length u TaskStatus.CANCELLED
            else u),
          events := st.events
            ++ [mkEvent st t TaskStatus.CANCELLED Actor.system
                 (some autoCancelReason)] } := by
  have hf : findTask st t.id = some t := find_task_of_mem st.tasks t h1 hm
  rw [transition_found hf, hop]
  rfl

theorem cancelBatch_spec (ts : List Task) : ∀ (st : StoreState),
    (st.tasks.map Task.id).Nodup →
    (ts.map Task.id).Nodup →
    (∀ t ∈ ts, t ∈ st.tasks ∧ t.status = TaskStatus.OPEN) →
    (cancelBatch st ts).2 = ts.length ∧
    (cancelBatch st ts).1.stands = st.stands ∧
    (cancelBatch st ts).1.nextId = st.nextId ∧
    ((cancelBatch st ts).1.events.map evProj
      = st.events.map evProj
        ++ ts.map (fun t => (t.id, some TaskStatus.OPEN, TaskStatus.CANCELLED,
             Actor.system, some autoCancelReason))) ∧
    st.events <+: (cancelBatch st ts).1.events ∧
    List.Forall₂ (fun u u' =>
      u'.id = u.id ∧ u'.taskType = u.taskType ∧ u'.dedupKey = u.dedupKey ∧
      u'.scheduledFor = u.scheduledFor ∧
      (u.id ∈ ts.map Task.id → u'.status = TaskStatus.CANCELLED) ∧
      (u.id ∉ ts.map Task.id → u' = u)) st.tasks (cancelBatch st ts).1.tasks := by
  induction ts with
  | nil =>
    intro st _ _ _
    refine ⟨rfl, rfl, rfl, by simp [cancelBatch], List.prefix_rfl, ?_⟩
    exact List.forall₂_same.mpr
      (fun u _ => ⟨rfl, rfl, rfl, rfl, by simp, fun _ => rfl⟩)
  | cons t ts ih =>
    intro st h1 h2 h3
    obtain ⟨hmem, hop⟩ := h3 t (List.mem_cons_self t ts)
    have htr := transition_cancel_ok h1 hmem hop
    have hstep : cancelBatch st (t :: ts)
        = ((cancelBatch { st with
              tasks := st.tasks.map (fun u =>
                if u.id == t.id then
                  applyTransitionTask st.events.length u TaskStatus.CANCELLED
                else u),
              events := st.events
                ++ [mkEvent st t TaskStatus.CANCELLED Actor.system
                     (some autoCancelReason)] } ts).1,
           (cancelBatch { st with
              tasks := st.tasks.map (fun u =>
                if u.id == t.id then
                  applyTransitionTask st.events.length u TaskStatus.CANCELLED
                else u),
              events := st.events
                ++ [mkEvent st t TaskStatus.CANCELLED Actor.system
                     (some autoCancelReason)] } ts).2 + 1) := by
      simp only [cancelBatch, htr]
    have htid : t.id ∉ ts.map Task.id := by
      have h2c := h2
      rw [List.map_cons, List.nodup_cons] at h2c
      exact h2c.1
    have h2' : (ts.map Task.id).Nodup := by
      have h2c := h2
      rw [List.map_cons, List.nodup_cons] at h2c
      exact h2c.2
    have pre1 : ((st.tasks.map (fun u =>
        if u.id == t.id then
          applyTransitionTask st.events.length u TaskStatus.CANCELLED
        else u)).map Task.id).Nodup := by
      rw [map_id_after_update]
      exact h1
    have pre3 : ∀ u ∈ ts, u ∈ st.tasks.map (fun u =>
        if u.id == t.id then
          applyTransitionTask st.events.length u TaskStatus.CANCELLED
        else u) ∧ u.status = TaskStatus.OPEN := by
      intro u hu
      obtain ⟨humem, huop⟩ := h3 u (List.mem_cons_of_mem t hu)
      have hne : u.id ≠ t.id := by
        intro he
        exact htid (he ▸ List.mem_map_of_mem Task.id hu)
      have hfu : (if u.id == t.id then
          applyTransitionTask st.events.length u TaskStatus.CANCELLED
        else u) = u := by
        simp [hne]
      refine ⟨?_, huop⟩
      rw [← hfu]
      exact List.mem_map_of_mem _ humem
    obtain ⟨ihc, ihstands, ihnext, ihev, ihpre, ihrel⟩ :=
      ih { st with
          tasks := st.tasks.map (fun u =>
            if u.id == t.id then
              applyTransitionTask st.events.length u TaskStatus.CANCELLED
            else u),
          events := st.events
            ++ [mkEvent st t TaskStatus.CANCELLED Actor.system
                 (some autoCancelReason)] } pre1 h2' pre3
    refine ⟨?_, ?_, ?_, ?_, ?_, ?_⟩
    · rw [hstep]
      exact congrArg (· + 1) ihc
    · rw [hstep]
      exact ihstands
    · rw [hstep]
      exact ihnext
    · rw [hstep]
      refine Eq.trans ihev ?_
      simp [evProj, mkEvent, hop]
    · rw [hstep]
      exact List.IsPrefix.trans (List.prefix_append st.events _) ihpre
    · rw [hstep]
      have base : List.Forall₂ (fun u v => v =
          if u.id == t.id then
            applyTransitionTask st.events.length u TaskStatus.CANCELLED
          else u) st.tasks
          (st.tasks.map (fun u =>
            if u.id == t.id then
              applyTransitionTask st.events.length u TaskStatus.CANCELLED
            else u)) := by
        rw [List.forall₂_map_right_iff]
        exact List.forall₂_same.mpr (fun _ _ => rfl)
      refine forall2_trans ?_ base ihrel
      intro a b c hb hS
      subst hb
      by_cases hid : a.id = t.id
      · have hfa : (if a.id == t.id then
            applyTransitionTask st.events.length a TaskStatus.CANCELLED
          else a) = applyTransitionTask st.events.length a
            TaskStatus.CANCELLED := by
          simp [hid]
        rw [hfa] at hS
        obtain ⟨_, _, _, _, _, snot⟩ := hS
        have hnotin : (applyTransitionTask st.events.length a
            TaskStatus.CANCELLED).id ∉ ts.map Task.id := by
          simpa [applyTransitionTask, hid] using htid
        have hc : c = applyTransitionTask st.events.length a
            TaskStatus.CANCELLED := snot hnotin
        subst hc
        refine ⟨rfl, rfl, rfl, rfl, fun _ => rfl, ?_⟩
        intro hn
        exact absurd (by simp [hid] : a.id ∈ (t :: ts).map Task.id) hn
      · have hfa : (if a.id == t.id then
            applyTransitionTask st.events.length a TaskStatus.CANCELLED
          else a) = a := by
          simp [hid]
        rw [hfa] at hS
        obtain ⟨sid, stype, skey, ssched, smem, snot⟩ := hS
        refine ⟨sid, stype, skey, ssched, ?_, ?_⟩
        · intro hmem2
          rcases (by simpa using hmem2 :
              a.id = t.id ∨ a.id ∈ ts.map Task.id) with h | h
          · exact absurd h hid
          · exact smem h
        · intro hn
          refine snot (fun hin => hn ?_)
          simp [hin]

theorem staleTask_iff (today : String) (t : Task) :
    staleTask today t = true ↔
      t.status = TaskStatus.OPEN ∧ t.taskType = dailyFullType ∧
      (∀ k, t.dedupKey = some k → ¬ (":" ++ today).data <:+ k.data) := by
  unfold staleTask endsWithStr
  cases hk : t.dedupKey with
  | none => simp
  | some k => simp [and_assoc]

theorem staleTask_false_of_status {today : String} {t : Task}
    (h : t.status ≠ TaskStatus.OPEN) : staleTask today t = false := by
  unfold staleTask
  simp [h]

theorem mkDedupKey_endsWith (sid today : String) :
    (":" ++ today).data <:+ (mkDedupKey sid today).data := by
  unfold mkDedupKey
  rw [String.data_append, String.data_append, String.data_append,
    String.data_append, List.append_assoc]
  exact List.suffix_append _ _

theorem staleTask_false_of_key {today : String} {t : Task} {sid : String}
    (hk : t.dedupKey = some (mkDedupKey sid today)) :
    staleTask today t = false := by
  unfold staleTask endsWithStr
  rw [hk]
  simp only [Bool.and_eq_false_imp, Bool.not_eq_false, decide_eq_true_eq]
  simp
  intro _ _
  simpa using mkDedupKey_endsWith sid today

theorem forall2_mem_right {α : Type} {R : α → α → Prop} {l₁ l₂ : List α}
    {b : α} (h : List.Forall₂ R l₁ l₂) (hb : b ∈ l₂) :
    ∃ a ∈ l₁, R a b := by
  induction h with
  | nil => simp at hb
  | cons hr _ ih =>
    rw [List.mem_cons] at hb
    rcases hb with rfl | hb
    · exact ⟨_, List.mem_cons_self _ _, hr⟩
    · obtain ⟨a, ha, har⟩ := ih hb
      exact ⟨a, List.mem_cons_of_mem _ ha, har⟩

theorem eq_of_id_eq_of_nodup {l : List Task} {a c : Task}
    (h : (l.map Task.id).Nodup) (ha : a ∈ l) (hc : c ∈ l)
    (he : c.id = a.id) : c = a := by
  have h1 := find_task_of_mem l a h ha
  have h2 := find_task_of_mem l c h hc
  rw [he] at h2
  rw [h1] at h2
  exact (Option.some.inj h2).symm

theorem cancelStale_spec (today : String) (st : StoreState)
    (h1 : (st.tasks.map Task.id).Nodup) :
    (cancelStale today st).2 = (st.tasks.filter (staleTask today)).length ∧
    (cancelStale today st).1.stands = st.stands ∧
    (cancelStale today st).1.nextId = st.nextId ∧
    ((cancelStale today st).1.events.map evProj
      = st.events.map evProj
        ++ (st.tasks.filter (staleTask today)).map
             (fun t => (t.id, some TaskStatus.OPEN, TaskStatus.CANCELLED,
                Actor.system, some autoCancelReason))) ∧
    st.events <+: (cancelStale today st).1.events ∧
    List.Forall₂ (fun u u' =>
      u'.id = u.id ∧ u'.taskType = u.taskType ∧ u'.dedupKey = u.dedupKey ∧
      u'.scheduledFor = u.scheduledFor ∧
      (u.id ∈ (st.tasks.filter (staleTask today)).map Task.id →
        u'.status = TaskStatus.CANCELLED) ∧
      (u.id ∉ (st.tasks.filter (staleTask today)).map Task.id → u' = u))
      st.tasks (cancelStale today st).1.tasks := by
  have hsub : List.Sublist (st.tasks.filter (staleTask today)) st.tasks :=
    List.filter_sublist st.tasks
  have h2 : ((st.tasks.filter (staleTask today)).map Task.id).Nodup :=
    h1.sublist (hsub.map Task.id)
  have h3 : ∀ t ∈ st.tasks.filter (staleTask today),
      t ∈ st.tasks ∧ t.status = TaskStatus.OPEN := by
    intro t ht
    refine ⟨List.mem_of_mem_filter ht, ?_⟩
    have hst := List.of_mem_filter ht
    exact ((staleTask_iff today t).mp hst).1
  exact cancelBatch_spec (st.tasks.filter (staleTask today)) st h1 h2 h3

theorem cancelStale_no_stale (today : String) (st : StoreState)
    (h1 : (st.tasks.map Task.id).Nodup) :
    ∀ u ∈ (cancelStale today st).1.tasks, staleTask today u = false := by
  intro u hu
  obtain ⟨_, _, _, _, _, hrel⟩ := cancelStale_spec today st h1
  obtain ⟨a, ha, har⟩ := forall2_mem_right hrel hu
  by_cases hstale : staleTask today a = true
  · have haf : a ∈ st.tasks.filter (staleTask today) :=
      List.mem_filter.mpr ⟨ha, hstale⟩
    have := har.2.2.2.2.1 (List.mem_map_of_mem Task.id haf)
    exact staleTask_false_of_status (by rw [this]; intro hcon; cases hcon)
  · have hnot : a.id ∉ (st.tasks.filter (staleTask today)).map Task.id := by
      intro hin
      rw [List.mem_map] at hin
      obtain ⟨c, hcf, hce⟩ := hin
      have hcm := List.mem_of_mem_filter hcf
      have hcs := List.of_mem_filter hcf
      have := eq_of_id_eq_of_nodup h1 ha hcm hce
      rw [this] at hcs
      exact hstale hcs
    have hu_eq := har.2.2.2.2.2 hnot
    rw [hu_eq]
    exact Bool.not_eq_true _ ▸ hstale

theorem insertForStand_ok {faults : String → Option String} {today : String}
    {acc : InsertAcc} {s : Stand}
    (h : insertOutcome faults acc.st (mkDedupKey s.id today) = none) :
    insertForStand faults today acc s
      = { st := insertNewTask acc.st dailyFullType
            (some (mkDedupKey s.id today)) none,
          created := acc.created + 1, failures := acc.failures } := by
  unfold insertForStand
  rw [h]

theorem insertForStand_some {faults : String → Option String} {today : String}
    {acc : InsertAcc} {s : Stand} {code : String}
    (h : insertOutcome faults acc.st (mkDedupKey s.id today) = some code) :
    insertForStand faults today acc s
      = if code == "23505" then acc
        else { acc with failures := acc.failures ++ [(s.id, code)] } := by
  unfold insertForStand
  rw [h]

theorem insertForStand_st {faults : String → Option String} {today : String}
    (acc : InsertAcc) (s : Stand) :
    (insertForStand faults today acc s).st = acc.st ∨
    (insertForStand faults today acc s).st
      = insertNewTask acc.st dailyFullType (some (mkDedupKey s.id today))
          none := by
  cases h : insertOutcome faults acc.st (mkDedupKey s.id today) with
  | none =>
    right
    rw [insertForStand_ok h]
  | some code =>
    left
    rw [insertForStand_some h]
    by_cases hc : (code == "23505") = true
    · rw [if_pos hc]
    · rw [if_neg hc]

theorem keyExists_insertNewTask (st : StoreState) (ty : String)
    (k : Option String) (sched : Option Int) (k' : String) :
    keyExists (insertNewTask st ty k sched) k'
      = (keyExists st k' || (k == some k')) := by
  unfold keyExists insertNewTask newTask
  simp [List.any_append]

theorem keyExists_mono_insertForStand {faults : String → Option String}
    {today : String} (acc : InsertAcc) (s : Stand) {k : String}
    (h : keyExists acc.st k = true) :
    keyExists (insertForStand faults today acc s).st k = true := by
  rcases @insertForStand_st faults today acc s with
    he | he
  · rw [he]
    exact h
  · rw [he, keyExists_insertNewTask, h]
    rfl

theorem insertAll_spec (faults : String → Option String) (today : String)
    (ss : List Stand) : ∀ (acc : InsertAcc),
    (insertAll faults today acc ss).st.stands = acc.st.stands ∧
    (∃ rest, (insertAll faults today acc ss).st.tasks
        = acc.st.tasks ++ rest ∧
      ∀ t ∈ rest, t.status = TaskStatus.OPEN ∧ t.taskType = dailyFullType ∧
        ∃ s ∈ ss, t.dedupKey = some (mkDedupKey s.id today)) ∧
    acc.st.events <+: (insertAll faults today acc ss).st.events ∧
    (∀ k, keyExists acc.st k = true →
      keyExists (insertAll faults today acc ss).st k = true) := by
  induction ss with
  | nil =>
    intro acc
    exact ⟨rfl, ⟨[], by simp [insertAll], by simp⟩, List.prefix_rfl,
      fun _ h => h⟩
  | cons s ss ih =>
    intro acc
    rw [insertAll]
    obtain ⟨ihstands, ⟨rest, hre, hrest⟩, ihpre, ihkeys⟩ :=
      ih (insertForStand faults today acc s)
    cases hio : insertOutcome faults acc.st (mkDedupKey s.id today) with
    | none =>
      rw [insertForStand_ok hio] at ihstands hre ihpre ihkeys ⊢
      refine ⟨ihstands, ⟨newTask acc.st dailyFullType
          (some (mkDedupKey s.id today)) none :: rest, ?_, ?_⟩, ?_, ?_⟩
      · rw [hre]
        show (acc.st.tasks ++ [_]) ++ rest = _
        rw [List.append_assoc]
        rfl
      · intro t ht
        rw [List.mem_cons] at ht
        rcases ht with rfl | ht
        · exact ⟨rfl, rfl, s, List.mem_cons_self s ss,
            rfl⟩
        · obtain ⟨h1, h2, s', hs', h3⟩ := hrest t ht
          exact ⟨h1, h2, s', List.mem_cons_of_mem s hs', h3⟩
      · refine List.IsPrefix.trans ?_ ihpre
        exact List.prefix_append acc.st.events _
      · intro k hk
        refine ihkeys k ?_
        rw [keyExists_insertNewTask, hk]
        rfl
    | some code =>
      have hsame : (insertForStand faults today acc s).st = acc.st := by
        rw [insertForStand_some hio]
        by_cases hc : (code == "23505") = true
        · rw [if_pos hc]
        · rw [if_neg hc]
      rw [hsame] at ihstands hre ihpre ihkeys
      refine ⟨ihstands, ⟨rest, hre, ?_⟩, ihpre, ihkeys⟩
      intro t ht
      obtain ⟨h1, h2, s', hs', h3⟩ := hrest t ht
      exact ⟨h1, h2, s', List.mem_cons_of_mem s hs', h3⟩

theorem insertAll_keys (today : String) (ss : List Stand) :
    ∀ (acc : InsertAcc), ∀ s ∈ ss,
      keyExists (insertAll noFaults today acc ss).st (mkDedupKey s.id today)
        = true := by
  induction ss with
  | nil => simp
  | cons s ss ih =>
    intro acc s' hs'
    rw [insertAll]
    rw [List.mem_cons] at hs'
    rcases hs' with rfl | hs'
    · have hafter : keyExists (insertForStand noFaults today acc s').st
          (mkDedupKey s'.id today) = true := by
        cases hio : insertOutcome noFaults acc.st (mkDedupKey s'.id today) with
        | none =>
          rw [insertForStand_ok hio]
          show keyExists (insertNewTask _ _ _ _) _ = true
          rw [keyExists_insertNewTask]
          simp
        | some code =>
          have hk : keyExists acc.st (mkDedupKey s'.id today) = true := by
            unfold insertOutcome noFaults at hio
            by_cases h : keyExists acc.st (mkDedupKey s'.id today) = true
            · exact h
            · rw [if_neg h] at hio
              cases hio
          exact keyExists_mono_insertForStand acc s' hk
      exact (insertAll_spec noFaults today ss _).2.2.2 _ hafter
    · exact ih _ s' hs'

theorem insertAll_noop (today : String) (ss : List Stand) :
    ∀ (acc : InsertAcc),
      (∀ s ∈ ss, keyExists acc.st (mkDedupKey s.id today) = true) →
      insertAll noFaults today acc ss = acc := by
  induction ss with
  | nil =>
    intro acc _
    rfl
  | cons s ss ih =>
    intro acc h
    have hk := h s (List.mem_cons_self s ss)
    have hio : insertOutcome noFaults acc.st (mkDedupKey s.id today)
        = some "23505" := by
      unfold insertOutcome noFaults
      rw [if_pos hk]
    have hstep : insertForStand noFaults today acc s = acc := by
      rw [insertForStand_some hio]
      rfl
    rw [insertAll, hstep]
    exact ih acc (fun s' hs' => h s' (List.mem_cons_of_mem s hs'))

theorem forall2_mem_left {α : Type} {R : α → α → Prop} {l₁ l₂ : List α}
    {a : α} (h : List.Forall₂ R l₁ l₂) (ha : a ∈ l₁) :
    ∃ b ∈ l₂, R a b := by
  induction h with
  | nil => simp at ha
  | cons hr _ ih =>
    rw [List.mem_cons] at ha
    rcases ha with rfl | ha
    · exact ⟨_, List.mem_cons_self _ _, hr⟩
    · obtain ⟨b, hb, hbr⟩ := ih ha
      exact ⟨b, List.mem_cons_of_mem _ hb, hbr⟩

theorem forall2_imp_mem {α : Type} {R S : α → α → Prop} {l₁ l₂ : List α}
    (h : List.Forall₂ R l₁ l₂)
    (himp : ∀ a ∈ l₁, ∀ b, R a b → S a b) : List.Forall₂ S l₁ l₂ := by
  induction h with
  | nil => exact List.Forall₂.nil
  | cons hr hrest ih =>
    refine List.Forall₂.cons
      (himp _ (List.mem_cons_self _ _) _ hr) (ih ?_)
    intro a ha b hab
    exact himp a (List.mem_cons_of_mem _ ha) b hab

theorem not_mem_stale_ids {today : String} {st : StoreState} {a : Task}
    (h1 : (st.tasks.map Task.id).Nodup) (ha : a ∈ st.tasks)
    (hstale : staleTask today a = false) :
    a.id ∉ (st.tasks.filter (staleTask today)).map Task.id := by
  intro hin
  rw [List.mem_map] at hin
  obtain ⟨c, hcf, hce⟩ := hin
  have hcm := List.mem_of_mem_filter hcf
  have hcs := List.of_mem_filter hcf
  have hca := eq_of_id_eq_of_nodup h1 ha hcm hce
  rw [hca] at hcs
  rw [hstale] at hcs
  cases hcs

theorem keyExists_iff (st : StoreState) (k : String) :
    keyExists st k = true ↔ ∃ t ∈ st.tasks, t.dedupKey = some k := by
  unfold keyExists
  simp [List.any_eq_true]

theorem string_data_inj {a b : String} (h : a.data = b.data) : a = b := by
  cases a
  cases b
  congr

theorem mkDedupKey_inj {a b today : String}
    (h : mkDedupKey a today = mkDedupKey b today) : a = b := by
  unfold mkDedupKey at h
  have hd : ((("DAILY:" ++ a) ++ ":") ++ today).data
      = ((("DAILY:" ++ b) ++ ":") ++ today).data := by rw [h]
  rw [String.data_append, String.data_append, String.data_append,
    String.data_append, String.data_append, String.data_append] at hd
  have h2 := List.append_cancel_right hd
  have h3 := List.append_cancel_right h2
  have h4 := List.append_cancel_left h3
  exact string_data_inj h4

theorem run_stands (today : String) (st : StoreState)
    (h1 : (st.tasks.map Task.id).Nodup) :
    (runDailyGeneration noFaults today st).1.stands = st.stands := by
  obtain ⟨hstands, _, _, _⟩ := insertAll_spec noFaults today
    (st.stands.filter eligibleStand) ⟨(cancelStale today st).1, 0, []⟩
  obtain ⟨_, hcs, _, _, _, _⟩ := cancelStale_spec today st h1
  exact hstands.trans hcs

theorem run_no_stale (today : String) (st : StoreState)
    (h1 : (st.tasks.map Task.id).Nodup) :
    ∀ u ∈ (runDailyGeneration noFaults today st).1.tasks,
      staleTask today u = false := by
  obtain ⟨_, ⟨rest, hre, hrest⟩, _, _⟩ := insertAll_spec noFaults today
    (st.stands.filter eligibleStand) ⟨(cancelStale today st).1, 0, []⟩
  intro u hu
  have hu' : u ∈ (cancelStale today st).1.tasks ++ rest := by
    rw [← hre]
    exact hu
  rw [List.mem_append] at hu'
  rcases hu' with hu' | hu'
  · exact cancelStale_no_stale today st h1 u hu'
  · obtain ⟨_, _, s, _, hk⟩ := hrest u hu'
    exact staleTask_false_of_key hk

theorem run_keys (today : String) (st : StoreState) :
    ∀ s ∈ st.stands, eligibleStand s = true →
      keyExists (runDailyGeneration noFaults today st).1
        (mkDedupKey s.id today) = true := by
  intro s hs he
  exact insertAll_keys today (st.stands.filter eligibleStand)
    ⟨(cancelStale today st).1, 0, []⟩ s (List.mem_filter.mpr ⟨hs, he⟩)

/-- C4: the stale-cancellation step transitions to CANCELLED exactly the tasks
with status OPEN, type DAILY_FULL, and dedup key not ending with ":" followed
by the run's date — each via a valid Lifecycle Engine transition carrying the
fixed system reason "Auto-cancelled: New daily task generated" and the system
actor (no human actor) — and leaves every other task exactly unchanged. -/
theorem C4_stale_cancellation (today : String) (st : StoreState)
    (h1 : (st.tasks.map Task.id).Nodup) :
    (∀ u : Task, staleTask today u = true ↔
      (u.status = TaskStatus.OPEN ∧ u.taskType = "DAILY_FULL" ∧
        ∀ k, u.dedupKey = some k → ¬ (":" ++ today).data <:+ k.data)) ∧
    List.Forall₂ (fun u u' =>
      (staleTask today u = true →
        u'.status = TaskStatus.CANCELLED ∧ u'.id = u.id ∧
        u'.taskType = u.taskType ∧ u'.dedupKey = u.dedupKey ∧
        validTransition u.status TaskStatus.CANCELLED = true) ∧
      (staleTask today u = false → u' = u))
      st.tasks (cancelStale today st).1.tasks ∧
    ((cancelStale today st).1.events.map evProj
      = st.events.map evProj
        ++ (st.tasks.filter (staleTask today)).map
             (fun t => (t.id, some TaskStatus.OPEN, TaskStatus.CANCELLED,
                Actor.system,
                some "Auto-cancelled: New daily task generated"))) ∧
    (cancelStale today st).2 = (st.tasks.filter (staleTask today)).length := by
  obtain ⟨hcount, _, _, hev, _, hrel⟩ := cancelStale_spec today st h1
  refine ⟨fun u => staleTask_iff today u, ?_, hev, hcount⟩
  refine forall2_imp_mem hrel ?_
  intro a ha b hab
  obtain ⟨hbid, hbtype, hbkey, _, hbmem, hbnot⟩ := hab
  constructor
  · intro hstale
    have haf : a ∈ st.tasks.filter (staleTask today) :=
      List.mem_filter.mpr ⟨ha, hstale⟩
    refine ⟨hbmem (List.mem_map_of_mem Task.id haf), hbid, hbtype, hbkey, ?_⟩
    rw [((staleTask_iff today a).mp hstale).1]
    decide
  · intro hstale
    exact hbnot (not_mem_stale_ids h1 ha hstale)

/-- Witness for C4 at a store holding one stale OPEN DAILY_FULL task from the
previous day. -/
theorem C4_stale_cancellation_witness :
    (([⟨0, TaskStatus.OPEN, "DAILY_FULL", some "DAILY:s1:2025-01-01", none,
        []⟩] : List Task).map Task.id).Nodup ∧
    ((∀ u : Task, staleTask "2025-01-02" u = true ↔
      (u.status = TaskStatus.OPEN ∧ u.taskType = "DAILY_FULL" ∧
        ∀ k, u.dedupKey = some k →
          ¬ (":" ++ "2025-01-02").data <:+ k.data)) ∧
    List.Forall₂ (fun u u' =>
      (staleTask "2025-01-02" u = true →
        u'.status = TaskStatus.CANCELLED ∧ u'.id = u.id ∧
        u'.taskType = u.taskType ∧ u'.dedupKey = u.dedupKey ∧
        validTransition u.status TaskStatus.CANCELLED = true) ∧
      (staleTask "2025-01-02" u = false → u' = u))
      [⟨0, TaskStatus.OPEN, "DAILY_FULL", some "DAILY:s1:2025-01-01", none,
        []⟩]
      (cancelStale "2025-01-02"
        ⟨[], [⟨0, TaskStatus.OPEN, "DAILY_FULL", some "DAILY:s1:2025-01-01",
          none, []⟩], [], 1⟩).1.tasks ∧
    ((cancelStale "2025-01-02"
        ⟨[], [⟨0, TaskStatus.OPEN, "DAILY_FULL", some "DAILY:s1:2025-01-01",
          none, []⟩], [], 1⟩).1.events.map evProj
      = ([] : List TaskEvent).map evProj
        ++ (([⟨0, TaskStatus.OPEN, "DAILY_FULL", some "DAILY:s1:2025-01-01",
              none, []⟩] : List Task).filter (staleTask "2025-01-02")).map
             (fun t => (t.id, some TaskStatus.OPEN, TaskStatus.CANCELLED,
                Actor.system,
                some "Auto-cancelled: New daily task generated"))) ∧
    (cancelStale "2025-01-02"
        ⟨[], [⟨0, TaskStatus.OPEN, "DAILY_FULL", some "DAILY:s1:2025-01-01",
          none, []⟩], [], 1⟩).2
      = (([⟨0, TaskStatus.OPEN, "DAILY_FULL", some "DAILY:s1:2025-01-01",
          none, []⟩] : List Task).filter (staleTask "2025-01-02")).length) :=
  ⟨by decide,
   C4_stale_cancellation "2025-01-02"
     ⟨[], [⟨0, TaskStatus.OPEN, "DAILY_FULL", some "DAILY:s1:2025-01-01",
       none, []⟩], [], 1⟩ (by decide)⟩

/-- C3: running the generation for the same date twice yields exactly the end
state of running it once — the second run creates no task, cancels no task and
reports no failure, so in particular the set of OPEN DAILY_FULL tasks is
unchanged by the second run. -/
theorem C3_generation_idempotent (today : String) (st : StoreState)
    (h1 : (st.tasks.map Task.id).Nodup) :
    runDailyGeneration noFaults today
        ((runDailyGeneration noFaults today st).1)
      = ((runDailyGeneration noFaults today st).1,
         { cancelled := 0, created := 0, failures := [] }) := by
  suffices h : ∀ st1 : StoreState,
      st1.stands = st.stands →
      (∀ u ∈ st1.tasks, staleTask today u = false) →
      (∀ s ∈ st.stands, eligibleStand s = true →
        keyExists st1 (mkDedupKey s.id today) = true) →
      runDailyGeneration noFaults today st1
        = (st1, { cancelled := 0, created := 0, failures := [] }) by
    exact h _ (run_stands today st h1) (run_no_stale today st h1)
      (run_keys today st)
  intro st1 hstands hns hkeys
  have hfil : st1.tasks.filter (staleTask today) = [] := by
    refine List.filter_eq_nil_iff.mpr ?_
    intro u hu
    rw [hns u hu]
    simp
  have hcanc : cancelStale today st1 = (st1, 0) := by
    unfold cancelStale
    rw [hfil]
    rfl
  have hins : insertAll noFaults today
      ⟨(cancelStale today st1).1, 0, []⟩ (st1.stands.filter eligibleStand)
      = ⟨(cancelStale today st1).1, 0, []⟩ := by
    refine insertAll_noop today _ _ ?_
    intro s hs
    have hs2 := List.mem_of_mem_filter hs
    have he := List.of_mem_filter hs
    rw [hstands] at hs2
    show keyExists (cancelStale today st1).1 (mkDedupKey s.id today) = true
    rw [hcanc]
    exact hkeys s hs2 he
  unfold runDailyGeneration
  rw [hins, hcanc]

/-- Witness for C3 at a store with one eligible stand and one stale task. -/
theorem C3_generation_idempotent_witness :
    ((([⟨0, TaskStatus.OPEN, "DAILY_FULL", some "DAILY:s1:2025-01-01", none,
        []⟩] : List Task)).map Task.id).Nodup ∧
    runDailyGeneration noFaults "2025-01-02"
        ((runDailyGeneration noFaults "2025-01-02"
          ⟨[⟨"s1", true, true⟩],
           [⟨0, TaskStatus.OPEN, "DAILY_FULL", some "DAILY:s1:2025-01-01",
             none, []⟩], [], 1⟩).1)
      = ((runDailyGeneration noFaults "2025-01-02"
          ⟨[⟨"s1", true, true⟩],
           [⟨0, TaskStatus.OPEN, "DAILY_FULL", some "DAILY:s1:2025-01-01",
             none, []⟩], [], 1⟩).1,
         { cancelled := 0, created := 0, failures := [] }) :=
  ⟨by decide,
   C3_generation_idempotent "2025-01-02"
     ⟨[⟨"s1", true, true⟩],
      [⟨0, TaskStatus.OPEN, "DAILY_FULL", some "DAILY:s1:2025-01-01", none,
        []⟩], [], 1⟩ (by decide)⟩

/-- C6: a run attempts a new OPEN DAILY_FULL task with key
`DAILY:{standId}:{today}` for every stand with dailyFull and isActive and for
no other stand: after the run the key of every eligible stand is present,
every task added by the run belongs to an eligible stand, a stale OPEN
DAILY_FULL task (e.g. yesterday's) ends up CANCELLED, and for a stand that is
inactive today (and whose id no eligible stand shares) no task with today's
key is created. -/
theorem C6_eligible_stand_selection (today : String) (st : StoreState)
    (h1 : (st.tasks.map Task.id).Nodup) :
    (∀ s ∈ st.stands, s.dailyFull = true → s.isActive = true →
      keyExists (runDailyGeneration noFaults today st).1
        ("DAILY:" ++ s.id ++ ":" ++ today) = true) ∧
    (∃ rest, (runDailyGeneration noFaults today st).1.tasks
        = (cancelStale today st).1.tasks ++ rest ∧
      ∀ t ∈ rest, t.status = TaskStatus.OPEN ∧ t.taskType = "DAILY_FULL" ∧
        ∃ s ∈ st.stands, s.dailyFull = true ∧ s.isActive = true ∧
          t.dedupKey = some ("DAILY:" ++ s.id ++ ":" ++ today)) ∧
    (∀ t ∈ st.tasks, t.taskType = "DAILY_FULL" → t.status = TaskStatus.OPEN →
      (∀ k, t.dedupKey = some k → ¬ (":" ++ today).data <:+ k.data) →
      ∃ t' ∈ (runDailyGeneration noFaults today st).1.tasks,
        t'.id = t.id ∧ t'.dedupKey = t.dedupKey ∧
        t'.status = TaskStatus.CANCELLED) ∧
    (∀ s ∈ st.stands, s.isActive = false →
      (∀ s' ∈ st.stands, eligibleStand s' = true → s'.id ≠ s.id) →
      keyExists st ("DAILY:" ++ s.id ++ ":" ++ today) = false →
      keyExists (runDailyGeneration noFaults today st).1
        ("DAILY:" ++ s.id ++ ":" ++ today) = false) := by
  obtain ⟨_, ⟨rest, hre, hrest⟩, _, _⟩ := insertAll_spec noFaults today
    (st.stands.filter eligibleStand) ⟨(cancelStale today st).1, 0, []⟩
  obtain ⟨_, _, _, _, _, hrel⟩ := cancelStale_spec today st h1
  refine ⟨?_, ?_, ?_, ?_⟩
  · intro s hs hd ha
    exact run_keys today st s hs (by simp [eligibleStand, hd, ha])
  · refine ⟨rest, hre, ?_⟩
    intro t ht
    obtain ⟨hto, htt, s, hsf, hk⟩ := hrest t ht
    have hsm := List.mem_of_mem_filter hsf
    have hse := List.of_mem_filter hsf
    rw [eligibleStand, Bool.and_eq_true] at hse
    exact ⟨hto, htt, s, hsm, hse.1, hse.2, hk⟩
  · intro t ht htt hto hknot
    have hstale : staleTask today t = true :=
      (staleTask_iff today t).mpr ⟨hto, htt, hknot⟩
    obtain ⟨t', ht', hrelb⟩ := forall2_mem_left hrel ht
    have htf : t ∈ st.tasks.filter (staleTask today) :=
      List.mem_filter.mpr ⟨ht, hstale⟩
    refine ⟨t', ?_, hrelb.1, hrelb.2.2.1, ?_⟩
    · have : t' ∈ (cancelStale today st).1.tasks ++ rest :=
        List.mem_append_left rest ht'
      rw [← hre] at this
      exact this
    · exact hrelb.2.2.2.2.1 (List.mem_map_of_mem Task.id htf)
  · intro s _ _ hnoid hkf
    rw [Bool.eq_false_iff]
    intro htrue
    rw [keyExists_iff] at htrue
    obtain ⟨t, ht, hk⟩ := htrue
    have ht2 : t ∈ (cancelStale today st).1.tasks ++ rest := by
      rw [← hre]
      exact ht
    rw [List.mem_append] at ht2
    rcases ht2 with ht2 | ht2
    · obtain ⟨a, ha, harel⟩ := forall2_mem_right hrel ht2
      have hak : a.dedupKey = some ("DAILY:" ++ s.id ++ ":" ++ today) := by
        rw [← harel.2.2.1]
        exact hk
      have : keyExists st ("DAILY:" ++ s.id ++ ":" ++ today) = true :=
        (keyExists_iff st _).mpr ⟨a, ha, hak⟩
      rw [hkf] at this
      cases this
    · obtain ⟨_, _, s', hs'f, hk'⟩ := hrest t ht2
      have hs'm := List.mem_of_mem_filter hs'f
      have hs'e := List.of_mem_filter hs'f
      rw [hk] at hk'
      have hkeq : mkDedupKey s'.id today = mkDedupKey s.id today :=
        (Option.some.inj hk').symm
      exact hnoid s' hs'm hs'e (mkDedupKey_inj hkeq)

/-- Witness for C6 at a store with one inactive stand and one eligible stand
plus yesterday's open task for the inactive one. -/
theorem C6_eligible_stand_selection_witness :
    (([⟨0, TaskStatus.OPEN, "DAILY_FULL", some "DAILY:s0:2025-01-01", none,
        []⟩] : List Task).map Task.id).Nodup ∧
    ((∀ s ∈ ([⟨"s0", true, false⟩, ⟨"s1", true, true⟩] : List Stand),
      s.dailyFull = true → s.isActive = true →
      keyExists (runDailyGeneration noFaults "2025-01-02"
          ⟨[⟨"s0", true, false⟩, ⟨"s1", true, true⟩],
           [⟨0, TaskStatus.OPEN, "DAILY_FULL", some "DAILY:s0:2025-01-01",
             none, []⟩], [], 1⟩).1
        ("DAILY:" ++ s.id ++ ":" ++ "2025-01-02") = true) ∧
    (∃ rest, (runDailyGeneration noFaults "2025-01-02"
          ⟨[⟨"s0", true, false⟩, ⟨"s1", true, true⟩],
           [⟨0, TaskStatus.OPEN, "DAILY_FULL", some "DAILY:s0:2025-01-01",
             none, []⟩], [], 1⟩).1.tasks
        = (cancelStale "2025-01-02"
            ⟨[⟨"s0", true, false⟩, ⟨"s1", true, true⟩],
             [⟨0, TaskStatus.OPEN, "DAILY_FULL", some "DAILY:s0:2025-01-01",
               none, []⟩], [], 1⟩).1.tasks ++ rest ∧
      ∀ t ∈ rest, t.status = TaskStatus.OPEN ∧ t.taskType = "DAILY_FULL" ∧
        ∃ s ∈ ([⟨"s0", true, false⟩, ⟨"s1", true, true⟩] : List Stand),
          s.dailyFull = true ∧ s.isActive = true ∧
          t.dedupKey = some ("DAILY:" ++ s.id ++ ":" ++ "2025-01-02")) ∧
    (∀ t ∈ ([⟨0, TaskStatus.OPEN, "DAILY_FULL", some "DAILY:s0:2025-01-01",
        none, []⟩] : List Task),
      t.taskType = "DAILY_FULL" → t.status = TaskStatus.OPEN →
      (∀ k, t.dedupKey = some k → ¬ (":" ++ "2025-01-02").data <:+ k.data) →
      ∃ t' ∈ (runDailyGeneration noFaults "2025-01-02"
          ⟨[⟨"s0", true, false⟩, ⟨"s1", true, true⟩],
           [⟨0, TaskStatus.OPEN, "DAILY_FULL", some "DAILY:s0:2025-01-01",
             none, []⟩], [], 1⟩).1.tasks,
        t'.id = t.id ∧ t'.dedupKey = t.dedupKey ∧
        t'.status = TaskStatus.CANCELLED) ∧
    (∀ s ∈ ([⟨"s0", true, false⟩, ⟨"s1", true, true⟩] : List Stand),
      s.isActive = false →
      (∀ s' ∈ ([⟨"s0", true, false⟩, ⟨"s1", true, true⟩] : List Stand),
        eligibleStand s' = true → s'.id ≠ s.id) →
      keyExists ⟨[⟨"s0", true, false⟩, ⟨"s1", true, true⟩],
           [⟨0, TaskStatus.OPEN, "DAILY_FULL", some "DAILY:s0:2025-01-01",
             none, []⟩], [], 1⟩
        ("DAILY:" ++ s.id ++ ":" ++ "2025-01-02") = false →
      keyExists (runDailyGeneration noFaults "2025-01-02"
          ⟨[⟨"s0", true, false⟩, ⟨"s1", true, true⟩],
           [⟨0, TaskStatus.OPEN, "DAILY_FULL", some "DAILY:s0:2025-01-01",
             none, []⟩], [], 1⟩).1
        ("DAILY:" ++ s.id ++ ":" ++ "2025-01-02") = false)) :=
  ⟨by decide,
   C6_eligible_stand_selection "2025-01-02"
     ⟨[⟨"s0", true, false⟩, ⟨"s1", true, true⟩],
      [⟨0, TaskStatus.OPEN, "DAILY_FULL", some "DAILY:s0:2025-01-01", none,
        []⟩], [], 1⟩ (by decide)⟩

theorem replayStatus_append_singleton (l : List TaskEvent) (e : TaskEvent) :
    replayStatus (l ++ [e]) = some e.toStatus := by
  unfold replayStatus
  rw [List.foldl_append]
  rfl

theorem replayStatus_getLast {l : List TaskEvent} {s : TaskStatus}
    (h : replayStatus l = some s) :
    ∃ e, l.getLast? = some e ∧ e.toStatus = s := by
  rcases List.eq_nil_or_concat l with rfl | ⟨l', e, rfl⟩
  · cases h
  · rw [List.concat_eq_append] at h ⊢
    rw [replayStatus_append_singleton] at h
    refine ⟨e, ?_, Option.some.inj h⟩
    simp

theorem eventsFor_update (st : StoreState) (T : List Task)
    (E : List TaskEvent) (x : Nat) :
    eventsFor { st with tasks := T, events := st.events ++ E } x
      = eventsFor st x ++ E.filter (fun e => e.taskId == x) := by
  show (st.events ++ E).filter _ = _
  exact List.filter_append _ _

theorem eventsFor_insertNewTask (st : StoreState) (ty : String)
    (k : Option String) (sched : Option Int) (x : Nat) :
    eventsFor (insertNewTask st ty k sched) x
      = eventsFor st x
        ++ [creationEvent st (newTask st ty k sched)].filter
             (fun e => e.taskId == x) := by
  show (st.events ++ _).filter _ = _
  exact List.filter_append _ _

theorem transition_ok_elim {st : StoreState} {ok : Bool} {tid : Nat}
    {s : TaskStatus} {actor : Actor} {reason : Option String}
    {st' : StoreState}
    (h : transition st ok tid s actor reason = Except.ok st') :
    ∃ t, findTask st tid = some t ∧ validTransition t.status s = true ∧
      ok = true ∧
      st' = { st with
        tasks := st.tasks.map (fun u =>
          if u.id == tid then applyTransitionTask st.events.length u s
          else u),
        events := st.events ++ [mkEvent st t s actor reason] } := by
  cases hf : findTask st tid with
  | none =>
    have hnone : transition st ok tid s actor reason
        = Except.error LifecycleErr.notFound := by
      unfold transition
      rw [hf]
    rw [hnone] at h
    cases h
  | some t =>
    rw [transition_found hf ok s actor reason] at h
    by_cases hv : validTransition t.status s = true
    · rw [if_pos hv] at h
      by_cases hok : ok = true
      · rw [if_pos hok] at h
        exact ⟨t, rfl, hv, hok, (Except.ok.inj h).symm⟩
      · rw [if_neg hok] at h
        cases h
    · rw [if_neg hv] at h
      cases h

theorem step_events_prefix {s₁ s₂ : StoreState} (h : StoreStep s₁ s₂) :
    s₁.events <+: s₂.events := by
  have hcb : ∀ (ts : List Task) (st : StoreState),
      st.events <+: (cancelBatch st ts).1.events := by
    intro ts
    induction ts with
    | nil => exact fun st => List.prefix_rfl
    | cons t ts ih =>
      intro st
      cases htr : transition st true t.id TaskStatus.CANCELLED Actor.system
          (some autoCancelReason) with
      | ok st1 =>
        simp only [cancelBatch, htr]
        have hpre : st.events <+: st1.events := by
          obtain ⟨u, _, _, _, rfl⟩ := transition_ok_elim htr
          exact List.prefix_append st.events _
        exact hpre.trans (ih st1)
      | error e =>
        simp only [cancelBatch, htr]
        exact ih st
  cases h with
  | lifecycle ok tid s actor reason st' htr =>
    obtain ⟨t, _, _, _, rfl⟩ := transition_ok_elim htr
    exact List.prefix_append s₁.events _
  | create ty k sched =>
    exact List.prefix_append s₁.events _
  | generation faults today =>
    refine List.IsPrefix.trans (hcb (s₁.tasks.filter (staleTask today)) s₁) ?_
    exact (insertAll_spec faults today (s₁.stands.filter eligibleStand)
      ⟨(cancelStale today s₁).1, 0, []⟩).2.2.1

theorem inv_transition {st st' : StoreState} {ok : Bool} {tid : Nat}
    {s : TaskStatus} {actor : Actor} {reason : Option String}
    (hinv : Inv st)
    (h : transition st ok tid s actor reason = Except.ok st') : Inv st' := by
  obtain ⟨t, hf, hv, hok, rfl⟩ := transition_ok_elim h
  have htm : t ∈ st.tasks := List.mem_of_find?_eq_some hf
  have htid : t.id = tid := by
    have hp := List.find?_some hf
    simpa using hp
  have hev : ∀ x : Nat, eventsFor { st with
      tasks := st.tasks.map (fun u =>
        if u.id == tid then applyTransitionTask st.events.length u s else u),
      events := st.events ++ [mkEvent st t s actor reason] } x
      = eventsFor st x
        ++ [mkEvent st t s actor reason].filter (fun e => e.taskId == x) :=
    fun x => eventsFor_update st _ [mkEvent st t s actor reason] x
  have hid : ∀ u : Task,
      (if u.id == tid then applyTransitionTask st.events.length u s
        else u).id = u.id := by
    intro u
    by_cases hc : (u.id == tid) = true
    · rw [if_pos hc]
      rfl
    · rw [if_neg hc]
  constructor
  · rw [map_id_after_update]
    exact hinv.idsNodup
  · intro u' hu'
    rw [List.mem_map] at hu'
    obtain ⟨u, hu, rfl⟩ := hu'
    rw [hid u]
    exact hinv.idsLt u hu
  · intro e he
    rcases List.mem_append.mp he with h1 | h1
    · exact hinv.evIdsLt e h1
    · rw [List.mem_singleton] at h1
      subst h1
      show t.id < st.nextId
      exact hinv.idsLt t htm
  · show (st.events ++ [mkEvent st t s actor reason]).map TaskEvent.timestamp
      = List.range (st.events ++ [mkEvent st t s actor reason]).length
    rw [List.map_append, hinv.times]
    show List.range st.events.length ++ [st.events.length] = _
    rw [← List.range_succ]
    congr 1
    simp
  · intro u' hu'
    rw [List.mem_map] at hu'
    obtain ⟨u, hu, rfl⟩ := hu'
    obtain ⟨e, evs, hee, henone⟩ := hinv.headCreation u hu
    refine ⟨e, evs ++ [mkEvent st t s actor reason].filter
      (fun e => e.taskId == u.id), ?_, henone⟩
    rw [hid u, hev u.id, hee]
    rfl
  · intro u' hu'
    rw [List.mem_map] at hu'
    obtain ⟨u, hu, rfl⟩ := hu'
    rw [hid u, hev u.id]
    by_cases hc : (t.id == u.id) = true
    · have htu : t.id = u.id := by simpa using hc
      have hueq : u = t :=
        eq_of_id_eq_of_nodup hinv.idsNodup htm hu htu.symm
      have hfil : [mkEvent st t s actor reason].filter
          (fun e => e.taskId == u.id) = [mkEvent st t s actor reason] := by
        rw [List.filter_singleton]
        show (bif t.id == u.id then _ else _) = _
        rw [hc]
        rfl
      rw [hfil, List.chain'_append]
      refine ⟨hinv.chainLink u hu, List.chain'_singleton _, ?_⟩
      intro x hx y hy
      obtain ⟨elast, hlast, hto⟩ := replayStatus_getLast (hinv.replayEq u hu)
      rw [hlast] at hx
      have hx' : elast = x := by simpa using hx
      have hy' : mkEvent st t s actor reason = y := by simpa using hy
      subst hx'
      subst hy'
      show some t.status = some elast.toStatus
      rw [hto, hueq]
    · have hcf : (t.id == u.id) = false := by
        rw [Bool.eq_false_iff]
        exact hc
      have hfil : [mkEvent st t s actor reason].filter
          (fun e => e.taskId == u.id) = [] := by
        rw [List.filter_singleton]
        show (bif t.id == u.id then _ else _) = _
        rw [hcf]
        rfl
      rw [hfil, List.append_nil]
      exact hinv.chainLink u hu
  · intro u' hu'
    rw [List.mem_map] at hu'
    obtain ⟨u, hu, rfl⟩ := hu'
    by_cases hc : (u.id == tid) = true
    · have huid : u.id = tid := by simpa using hc
      rw [if_pos hc]
      show replayStatus (eventsFor _ u.id) = some s
      rw [hev u.id]
      have hfil : [mkEvent st t s actor reason].filter
          (fun e => e.taskId == u.id) = [mkEvent st t s actor reason] := by
        rw [List.filter_singleton]
        show (bif t.id == u.id then _ else _) = _
        rw [show (t.id == u.id) = true by simp [htid, huid]]
        rfl
      rw [hfil, replayStatus_append_singleton]
      rfl
    · have huid : u.id ≠ tid := by simpa using hc
      rw [if_neg hc]
      rw [hev u.id]
      have hfil : [mkEvent st t s actor reason].filter
          (fun e => e.taskId == u.id) = [] := by
        rw [List.filter_singleton]
        show (bif t.id == u.id then _ else _) = _
        rw [show (t.id == u.id) = false by
          simp only [htid, beq_eq_false_iff_ne, ne_eq]
          exact fun he => huid he.symm]
        rfl
      rw [hfil, List.append_nil]
      exact hinv.replayEq u hu

theorem inv_insertNewTask {st : StoreState} (hinv : Inv st) (ty : String)
    (k : Option String) (sched : Option Int) :
    Inv (insertNewTask st ty k sched) := by
  have hevne : ∀ e ∈ st.events, e.taskId ≠ st.nextId :=
    fun e he => Nat.ne_of_lt (hinv.evIdsLt e he)
  have hnewev := eventsFor_insertNewTask st ty k sched
  have hflt : ∀ x : Nat, x ≠ st.nextId →
      [creationEvent st (newTask st ty k sched)].filter
        (fun e => e.taskId == x) = [] := by
    intro x hx
    rw [List.filter_singleton]
    show (bif st.nextId == x then _ else _) = _
    rw [show (st.nextId == x) = false by
      simp only [beq_eq_false_iff_ne, ne_eq]
      exact fun he => hx he.symm]
    rfl
  have hfeq : [creationEvent st (newTask st ty k sched)].filter
      (fun e => e.taskId == st.nextId)
      = [creationEvent st (newTask st ty k sched)] := by
    rw [List.filter_singleton]
    show (bif st.nextId == st.nextId then _ else _) = _
    rw [show (st.nextId == st.nextId) = true by simp]
    rfl
  constructor
  · show (List.map Task.id
      (st.tasks ++ [newTask st ty k sched])).Nodup
    rw [List.map_append]
    refine List.Nodup.append hinv.idsNodup (List.nodup_singleton _) ?_
    intro a ha hb
    rw [List.mem_map] at ha
    obtain ⟨u, hu, rfl⟩ := ha
    rw [List.map_cons, List.map_nil, List.mem_singleton] at hb
    exact absurd hb (Nat.ne_of_lt (hinv.idsLt u hu))
  · intro u hu
    rcases List.mem_append.mp hu with h1 | h1
    · exact Nat.lt_succ_of_lt (hinv.idsLt u h1)
    · rw [List.mem_singleton] at h1
      subst h1
      exact Nat.lt_succ_self _
  · intro e he
    rcases List.mem_append.mp he with h1 | h1
    · exact Nat.lt_succ_of_lt (hinv.evIdsLt e h1)
    · rw [List.mem_singleton] at h1
      subst h1
      exact Nat.lt_succ_self _
  · show (st.events ++ [creationEvent st (newTask st ty k sched)]).map
        TaskEvent.timestamp
      = List.range (st.events
          ++ [creationEvent st (newTask st ty k sched)]).length
    rw [List.map_append, hinv.times]
    show List.range st.events.length ++ [st.events.length] = _
    rw [← List.range_succ]
    congr 1
    simp
  · intro u hu
    rcases List.mem_append.mp hu with h1 | h1
    · obtain ⟨e, evs, hee, hnone⟩ := hinv.headCreation u h1
      refine ⟨e, evs ++ [creationEvent st (newTask st ty k sched)].filter
        (fun e => e.taskId == u.id), ?_, hnone⟩
      rw [hnewev u.id, hee]
      rfl
    · rw [List.mem_singleton] at h1
      subst h1
      refine ⟨creationEvent st (newTask st ty k sched), [], ?_, rfl⟩
      show eventsFor (insertNewTask st ty k sched) st.nextId = _
      rw [hnewev st.nextId, hfeq]
      have hold : eventsFor st st.nextId = [] := by
        refine List.filter_eq_nil_iff.mpr ?_
        intro e he
        simp only [beq_iff_eq]
        exact hevne e he
      rw [hold]
      rfl
  · intro u hu
    rcases List.mem_append.mp hu with h1 | h1
    · have hne : u.id ≠ st.nextId := Nat.ne_of_lt (hinv.idsLt u h1)
      rw [hnewev u.id, hflt u.id hne, List.append_nil]
      exact hinv.chainLink u h1
    · rw [List.mem_singleton] at h1
      subst h1
      show List.Chain' _ (eventsFor (insertNewTask st ty k sched) st.nextId)
      rw [hnewev st.nextId, hfeq]
      have hold : eventsFor st st.nextId = [] := by
        refine List.filter_eq_nil_iff.mpr ?_
        intro e he
        simp only [beq_iff_eq]
        exact hevne e he
      rw [hold]
      exact List.chain'_singleton _
  · intro u hu
    rcases List.mem_append.mp hu with h1 | h1
    · have hne : u.id ≠ st.nextId := Nat.ne_of_lt (hinv.idsLt u h1)
      rw [hnewev u.id, hflt u.id hne, List.append_nil]
      exact hinv.replayEq u h1
    · rw [List.mem_singleton] at h1
      subst h1
      show replayStatus (eventsFor (insertNewTask st ty k sched) st.nextId)
        = some TaskStatus.OPEN
      rw [hnewev st.nextId, hfeq]
      have hold : eventsFor st st.nextId = [] := by
        refine List.filter_eq_nil_iff.mpr ?_
        intro e he
        simp only [beq_iff_eq]
        exact hevne e he
      rw [hold]
      rfl

theorem inv_cancelBatch (ts : List Task) : ∀ (st : StoreState), Inv st →
    Inv (cancelBatch st ts).1 := by
  induction ts with
  | nil => exact fun st h => h
  | cons t ts ih =>
    intro st hinv
    cases htr : transition st true t.id TaskStatus.CANCELLED Actor.system
        (some autoCancelReason) with
    | ok st1 =>
      simp only [cancelBatch, htr]
      exact ih st1 (inv_transition hinv htr)
    | error e =>
      simp only [cancelBatch, htr]
      exact ih st hinv

theorem inv_insertAll (faults : String → Option String) (today : String)
    (ss : List Stand) : ∀ (acc : InsertAcc), Inv acc.st →
    Inv (insertAll faults today acc ss).st := by
  induction ss with
  | nil => exact fun acc h => h
  | cons s ss ih =>
    intro acc hinv
    rw [insertAll]
    refine ih _ ?_
    rcases @insertForStand_st faults today acc s with
      he | he
    · rw [he]
      exact hinv
    · rw [he]
      exact inv_insertNewTask hinv _ _ _

theorem inv_step {s₁ s₂ : StoreState} (h : StoreStep s₁ s₂) (hinv : Inv s₁) :
    Inv s₂ := by
  cases h with
  | lifecycle ok tid s actor reason st' htr => exact inv_transition hinv htr
  | create ty k sched => exact inv_insertNewTask hinv _ _ _
  | generation faults today =>
    exact inv_insertAll faults today _ _
      (inv_cancelBatch (s₁.tasks.filter (staleTask today)) s₁ hinv)

theorem inv_reach {s₁ s₂ : StoreState} (h : Reach s₁ s₂) (hinv : Inv s₁) :
    Inv s₂ := by
  induction h with
  | refl => exact hinv
  | tail _ hstep ih => exact inv_step hstep ih

/-- C8: the audit log is append-only — no operation updates or deletes an
existing event — and in every store reachable from a well-formed one, each
task's event sequence is strictly ordered by timestamp, starts with a
creation event whose fromStatus is null, links each event's fromStatus to
the preceding toStatus, and folding the events' toStatus in order
reconstructs the task's current status. -/
theorem C8_audit_reconstruction (st₀ st : StoreState) (h0 : Inv st₀)
    (h : Reach st₀ st) :
    (∀ s₁ s₂ : StoreState, StoreStep s₁ s₂ → s₁.events <+: s₂.events) ∧
    (∀ t ∈ st.tasks,
      ((eventsFor st t.id).map TaskEvent.timestamp).Pairwise (· < ·) ∧
      (∃ e evs, eventsFor st t.id = e :: evs ∧ e.fromStatus = none) ∧
      List.Chain' (fun a b => b.fromStatus = some a.toStatus)
        (eventsFor st t.id) ∧
      replayStatus (eventsFor st t.id) = some t.status) := by
  have hinv : Inv st := inv_reach h h0
  refine ⟨fun s₁ s₂ hs => step_events_prefix hs, ?_⟩
  intro t ht
  have hpw : List.Pairwise (fun a b => a.timestamp < b.timestamp)
      st.events := by
    have hr : List.Pairwise (· < ·) (st.events.map TaskEvent.timestamp) := by
      rw [hinv.times]
      exact List.pairwise_lt_range _
    exact List.pairwise_map.mp hr
  refine ⟨?_, hinv.headCreation t ht, hinv.chainLink t ht,
    hinv.replayEq t ht⟩
  rw [List.pairwise_map]
  exact hpw.sublist (List.filter_sublist st.events)

/-- Witness for C8 at a well-formed one-task store with its creation event. -/
theorem C8_audit_reconstruction_witness :
    Inv ⟨[], [⟨0, TaskStatus.OPEN, "MANUAL", none, none, []⟩],
      [⟨0, 0, none, TaskStatus.OPEN, Actor.system, none, 0⟩], 1⟩ ∧
    Reach ⟨[], [⟨0, TaskStatus.OPEN, "MANUAL", none, none, []⟩],
      [⟨0, 0, none, TaskStatus.OPEN, Actor.system, none, 0⟩], 1⟩
      ⟨[], [⟨0, TaskStatus.OPEN, "MANUAL", none, none, []⟩],
      [⟨0, 0, none, TaskStatus.OPEN, Actor.system, none, 0⟩], 1⟩ ∧
    ((∀ s₁ s₂ : StoreState, StoreStep s₁ s₂ → s₁.events <+: s₂.events) ∧
    (∀ t ∈ ([⟨0, TaskStatus.OPEN, "MANUAL", none, none, []⟩] : List Task),
      ((eventsFor ⟨[], [⟨0, TaskStatus.OPEN, "MANUAL", none, none, []⟩],
          [⟨0, 0, none, TaskStatus.OPEN, Actor.system, none, 0⟩], 1⟩
          t.id).map TaskEvent.timestamp).Pairwise (· < ·) ∧
      (∃ e evs, eventsFor ⟨[],
          [⟨0, TaskStatus.OPEN, "MANUAL", none, none, []⟩],
          [⟨0, 0, none, TaskStatus.OPEN, Actor.system, none, 0⟩], 1⟩ t.id
          = e :: evs ∧ e.fromStatus = none) ∧
      List.Chain' (fun a b => b.fromStatus = some a.toStatus)
        (eventsFor ⟨[], [⟨0, TaskStatus.OPEN, "MANUAL", none, none, []⟩],
          [⟨0, 0, none, TaskStatus.OPEN, Actor.system, none, 0⟩], 1⟩
          t.id) ∧
      replayStatus (eventsFor ⟨[],
          [⟨0, TaskStatus.OPEN, "MANUAL", none, none, []⟩],
          [⟨0, 0, none, TaskStatus.OPEN, Actor.system, none, 0⟩], 1⟩ t.id)
        = some t.status)) := by
  have hinv : Inv ⟨[], [⟨0, TaskStatus.OPEN, "MANUAL", none, none, []⟩],
      [⟨0, 0, none, TaskStatus.OPEN, Actor.system, none, 0⟩], 1⟩ := by
    constructor
    · decide
    · decide
    · decide
    · decide
    · intro t ht
      rw [List.mem_singleton] at ht
      subst ht
      exact ⟨⟨0, 0, none, TaskStatus.OPEN, Actor.system, none, 0⟩, [], rfl,
        rfl⟩
    · intro t ht
      rw [List.mem_singleton] at ht
      subst ht
      exact List.chain'_singleton _
    · decide
  exact ⟨hinv, Relation.ReflTransGen.refl,
    C8_audit_reconstruction _ _ hinv Relation.ReflTransGen.refl⟩

end ContainerFlow
